import Mathlib

/-!
Verification of the data pipeline of the slow-moving-inventory dashboard
(`app1.py`): encoding resolution (`detect_encoding`), the decode fallback
chain, column reconciliation, numeric coercion, derived metrics, and the
CSV export round trip (`load_data` / `main`).

The Python code is shallowly embedded: the uploaded file object becomes an
explicit `ByteStream` state, pandas dataframes become `DataFrame` (a header
list plus rows of `Value` cells), machine floats become rationals, and
fallible code returns `Except`/`Option`.  Behaviour of the external
libraries (CPython codecs, pandas) that the code calls is modelled where
the code depends on it, and noted in the doc comment of each definition.
-/

/-- The fixed candidate encoding list of `detect_encoding` (app1.py line 52)
    in its source order; the same literal list is retried by `load_data`
    (line 98). -/
def encodings : List String := ["utf-8", "gbk", "gb2312", "latin1", "cp1252", "iso-8859-1"]

/-- An uploaded file object: the underlying bytes together with the current
    read position (the Python file-object `tell`/`read`/`seek` state).
    Bytes are naturals; no claim depends on the 0..255 bound. -/
structure ByteStream where
  data : List Nat
  pos : Nat
deriving DecidableEq

/-- Python `f.read(n)`: return up to `n` bytes starting at the current
    position and advance the position by the number of bytes actually
    read. -/
def ByteStream.read (s : ByteStream) (n : Nat) : List Nat × ByteStream :=
  let bytes := (s.data.drop s.pos).take n
  (bytes, { s with pos := s.pos + bytes.length })

/-- Python `f.seek(p)` with absolute position `p`. -/
def ByteStream.seek (s : ByteStream) (p : Nat) : ByteStream :=
  { s with pos := p }

/-- Python `f.tell()`. -/
def ByteStream.tell (s : ByteStream) : Nat := s.pos

/-- The first element of the list accepted by `p`: the `for`/`try`/`except`
    loop of `detect_encoding` (app1.py lines 62-70), which returns on the
    first encoding that decodes the sample and falls through otherwise. -/
def firstOk (p : String → Bool) : List String → Option String
  | [] => none
  | e :: rest => if p e then some e else firstOk p rest

/-- `detect_encoding` (app1.py lines 45-74), parameterized by the decoding
    oracle `ok enc sample`, which stands for "`sample.decode(enc)` raises
    neither `UnicodeDecodeError` nor `LookupError`" (CPython codec
    behaviour, external to the repository).  Returns the detected encoding
    together with the file object in the state the function leaves it:
    it saves `tell()`, reads a 10000-byte sample, seeks back, and scans the
    candidate list, defaulting to `"utf-8"` when every candidate fails. -/
def detect_encoding (ok : String → List Nat → Bool) (uploaded_file : ByteStream) :
    String × ByteStream :=
  let original_position := uploaded_file.tell
  let rd := uploaded_file.read 10000
  let f2 := rd.2.seek original_position
  match firstOk (fun enc => ok enc rd.1) encodings with
  | some enc => (enc, f2)
  | none => ("utf-8", f2)

/-- Position of `x` in a list: 0 at the head, length of the list when
    absent.  `priority` below instantiates it with the candidate list, so
    that a smaller number means a more preferred encoding. -/
def listIdx (x : String) : List String → Nat
  | [] => 0
  | y :: ys => if y = x then 0 else listIdx x ys + 1

/-- Priority of an encoding: its position in the candidate list. -/
def priority (enc : String) : Nat := listIdx enc encodings

/-- A cell of a pandas dataframe as the pipeline sees it: missing (`NaN`),
    a number, or text.  Machine floats are modelled as rationals. -/
inductive Value where
  | na : Value
  | num : ℚ → Value
  | str : String → Value
deriving DecidableEq

/-- The numeric value of a decimal digit character, if it is one. -/
def digitVal? (c : Char) : Option Nat :=
  if '0' ≤ c ∧ c ≤ '9' then some (c.toNat - 48) else none

/-- Fold a run of digit characters into a natural number, most significant
    first, starting from `acc`; fails on any non-digit. -/
def parseDigitsAux : Nat → List Char → Option Nat
  | acc, [] => some acc
  | acc, c :: cs =>
    match digitVal? c with
    | some d => parseDigitsAux (10 * acc + d) cs
    | none => none

/-- The decimal-numeral grammar behind `pd.to_numeric(..., errors='coerce')`
    (app1.py line 155) on a text cell, modelled as an exact rational:
    an optional sign, integer digits, and an optional point with fraction
    digits (one of the two digit runs may be empty, not both).  Exponent
    forms and other pandas extensions are not modelled; no claim depends
    on them. -/
def parseUnsigned (cs : List Char) : Option ℚ :=
  match cs.dropWhile (fun c => c ≠ '.') with
  | [] =>
    if (cs.takeWhile (fun c => c ≠ '.')).isEmpty then none
    else (parseDigitsAux 0 (cs.takeWhile (fun c => c ≠ '.'))).map (fun n : Nat => (n : ℚ))
  | _ :: fp =>
    if fp.any (fun c => c = '.') then none
    else if (cs.takeWhile (fun c => c ≠ '.')).isEmpty ∧ fp.isEmpty then none
    else
      match parseDigitsAux 0 (cs.takeWhile (fun c => c ≠ '.')), parseDigitsAux 0 fp with
      | some i, some f => some ((i : ℚ) + (f : ℚ) / 10 ^ fp.length)
      | _, _ => none

/-- Numeric parse of a cell's text: optional leading sign, then an unsigned
    decimal numeral. -/
def parseNum (s : String) : Option ℚ :=
  match s.toList with
  | [] => none
  | c :: rest =>
    if c = '-' then (parseUnsigned rest).map (fun q => -q)
    else if c = '+' then parseUnsigned rest
    else parseUnsigned (c :: rest)

/-- A dataframe: the header row and the data rows.  `read_csv` produces a
    rectangular frame, so theorems that need it carry the row-length
    hypothesis explicitly. -/
structure DataFrame where
  headers : List String
  rows : List (List Value)
deriving DecidableEq

/-- How `load_data` reports failure: the missing-required-columns report of
    app1.py lines 144-147 (`st.error` with the missing canonical names and
    `st.info` with the full actual header list, then `return None`), or the
    top-level exception handler of lines 170-173 (any exception becomes an
    error message and `return None`). -/
inductive LoadError where
  | missingColumns : List String → List String → LoadError
  | exception : String → LoadError
deriving DecidableEq

/-- `required_columns` (app1.py line 114). -/
def required_columns : List String :=
  ["店铺", "品名", "产品类别", "Msku", "日均", "上月滞销", "本月滞销"]

/-- `column_mapping` (app1.py lines 117-125): canonical field name to its
    ordered alias list. -/
def column_mapping : List (String × List String) :=
  [("店铺", ["店铺", "store", "Shop", "门店"]),
   ("品名", ["品名", "产品名称", "product", "Product", "商品名称"]),
   ("产品类别", ["产品类别", "category", "Category", "品类"]),
   ("Msku", ["Msku", "MSKU", "sku", "SKU"]),
   ("日均", ["日均", "日均销量", "daily", "Daily", "平均销量"]),
   ("上月滞销", ["上月滞销", "上月滞销数量", "last_month", "LastMonth", "上月库存"]),
   ("本月滞销", ["本月滞销", "本月滞销数量", "this_month", "ThisMonth", "本月库存"])]

/-- The dictionary `actual_columns` built by app1.py lines 128-133, as a
    function from canonical key to its value: the first alias of the key
    (in declared order) present among the actual headers, and `none` when
    the argument is not a canonical key or no alias is present (the key is
    then absent from the dictionary). -/
def acFind (headers : List String) (std : String) : Option String :=
  match column_mapping.find? (fun kv => kv.1 == std) with
  | some kv => kv.2.find? (fun n => headers.contains n)
  | none => none

/-- `missing_columns` (app1.py line 143): the required columns that got no
    entry in `actual_columns`. -/
def missingOf (headers : List String) : List String :=
  required_columns.filter (fun col => (acFind headers col).isNone)

/-- One column label under `df.rename(columns=actual_columns)` (app1.py
    line 150): a label that is a key of the dictionary is replaced by the
    dictionary's value for it; note the source passes the canonical→actual
    dictionary directly, so keys are canonical names. -/
def renameHeader (headers : List String) (h : String) : String :=
  match acFind headers h with
  | some v => v
  | none => h

/-- `df.rename(columns=actual_columns)` applied to the whole frame. -/
def renameDF (df : DataFrame) : DataFrame :=
  { df with headers := df.headers.map (renameHeader df.headers) }

/-- Index of the first column with label `c`, as pandas label lookup
    `df[c]` resolves it. -/
def colIdx? : List String → String → Option Nat
  | [], _ => none
  | h :: hs, c => if h = c then some 0 else (colIdx? hs c).map (fun i => i + 1)

/-- The cell of `row` in column `c` of a frame with the given headers. -/
def getCell (headers : List String) (row : List Value) (c : String) : Value :=
  match colIdx? headers c with
  | some i => row.getD i .na
  | none => .na

/-- Replace the cell at position `i` of a row by `f` of it. -/
def applyAt (i : Nat) (f : Value → Value) (row : List Value) : List Value :=
  row.set i (f (row.getD i .na))

/-- `pd.to_numeric(·, errors='coerce')` on one cell: numbers pass through,
    text is parsed, anything unparseable becomes `NaN`. -/
def to_numeric_cell : Value → Value
  | .na => .na
  | .num q => .num q
  | .str s =>
    match parseNum s with
    | some q => .num q
    | none => .na

/-- `numeric_columns` (app1.py line 153). -/
def numeric_columns : List String := ["日均", "上月滞销", "本月滞销"]

/-- The loop of app1.py lines 154-155: `df[col] = pd.to_numeric(df[col],
    errors='coerce')` for each numeric column.  Label lookup on an absent
    column raises `KeyError`, which the top-level handler of `load_data`
    turns into an error return. -/
def coerceCols : List String → DataFrame → Except LoadError DataFrame
  | [], df => .ok df
  | c :: cs, df =>
    match colIdx? df.headers c with
    | some i => coerceCols cs { df with rows := df.rows.map (applyAt i to_numeric_cell) }
    | none => .error (.exception ("KeyError: " ++ c))

/-- `df.fillna(0)` on one cell. -/
def fill_cell : Value → Value
  | .na => .num 0
  | v => v

/-- `df = df.fillna(0)` (app1.py line 158): applied to every cell of the
    whole frame, not only the numeric columns. -/
def fillna (df : DataFrame) : DataFrame :=
  { df with rows := df.rows.map (fun r => r.map fill_cell) }

/-- Elementwise subtraction of two cells (`df[a] - df[b]`).  The pipeline
    only applies it after coercion and fill, so both cells are numbers. -/
def value_sub : Value → Value → Value
  | .num a, .num b => .num (a - b)
  | _, _ => .na

/-- `.replace(0, 1)` on one cell of the previous-period column (app1.py
    line 163): the division-by-zero guard. -/
def replace_zero_one : Value → Value
  | .num q => .num (if q = 0 then 1 else q)
  | v => v

/-- `(df[a] / df[b]) * 100` elementwise on a pair of cells.  The pipeline
    only divides by the output of `replace_zero_one`, which is never the
    number zero. -/
def value_pct : Value → Value → Value
  | .num a, .num b => .num (a / b * 100)
  | _, _ => .na

/-- Column assignment `df[c] = <series>` where the new series is computed
    rowwise by `g`: overwrite the column in place when the label exists,
    else append it on the right — pandas assignment semantics. -/
def setColWith (df : DataFrame) (c : String) (g : List Value → Value) : DataFrame :=
  match colIdx? df.headers c with
  | some i => { df with rows := df.rows.map (fun r => r.set i (g r)) }
  | none => { headers := df.headers ++ [c], rows := df.rows.map (fun r => r ++ [g r]) }

/-- The derived-column step (app1.py lines 160-163):
    `df['滞销数量变化'] = df['本月滞销'] - df['上月滞销']` then
    `df['变化百分比'] = (df['滞销数量变化'] / df['上月滞销'].replace(0, 1)) * 100`,
    each an elementwise column assignment. -/
def deriveStep (df3 : DataFrame) : DataFrame :=
  let df4 := setColWith df3 "滞销数量变化"
    (fun r => value_sub (getCell df3.headers r "本月滞销") (getCell df3.headers r "上月滞销"))
  setColWith df4 "变化百分比"
    (fun r => value_pct (getCell df4.headers r "滞销数量变化")
      (replace_zero_one (getCell df4.headers r "上月滞销")))

/-- The body of `load_data` after a successful `read_csv` (app1.py lines
    113-168): reconcile columns, reject on missing required columns with
    the exact missing list and the actual headers, rename, coerce the
    numeric columns (`KeyError` on an absent label aborts via the outer
    handler), fill `NaN` with 0 over the whole frame, then compute the two
    derived columns 滞销数量变化 and 变化百分比. -/
def process (df : DataFrame) : Except LoadError DataFrame :=
  let missing_columns := missingOf df.headers
  if missing_columns.isEmpty then
    let df1 := renameDF df
    match coerceCols numeric_columns df1 with
    | .error e => .error e
    | .ok df2 => .ok (deriveStep (fillna df2))
  else .error (.missingColumns missing_columns df.headers)

/-- The retry loop of app1.py lines 98-106: first successful
    `pd.read_csv(uploaded_file, encoding=enc)` over the candidate list
    (the stream is rewound with `seek(0)` before each attempt, so each
    attempt sees the whole file). -/
def firstRead (read : String → Option DataFrame) : List String → Option DataFrame
  | [] => none
  | enc :: rest =>
    match read enc with
    | some df => some df
    | none => firstRead read rest

/-- `load_data` (app1.py lines 77-173), parameterized by
    `read enc = some df` standing for "`pd.read_csv` of the full rewound
    stream under encoding `enc` decodes without `UnicodeDecodeError` /
    `LookupError` and parses to `df`" (pandas behaviour, external to the
    repository).  The encoding is the manual one if given, else the
    detected one; on read failure the candidate list is retried in order;
    if every candidate fails, the source calls
    `pd.read_csv(uploaded_file, encoding='utf-8', errors='replace')` —
    but `read_csv` accepts no `errors` keyword (the lossy option is
    spelled `encoding_errors`), so that call raises `TypeError`, which the
    top-level handler turns into an error return instead of a lossy
    load. -/
def load_data (read : String → Option DataFrame) (ok : String → List Nat → Bool)
    (uploaded_file : ByteStream) (manual_encoding : Option String) :
    Except LoadError DataFrame :=
  let encoding :=
    match manual_encoding with
    | some e => e
    | none => (detect_encoding ok uploaded_file).1
  match read encoding with
  | some df => process df
  | none =>
    match firstRead read encodings with
    | some df => process df
    | none => .error (.exception "TypeError: read_csv got an unexpected keyword argument errors")

/-- The values of column `c`, top to bottom. -/
def getColValues (df : DataFrame) (c : String) : List Value :=
  df.rows.map (fun r => getCell df.headers r c)

/-- Little-endian base-10 digits with explicit fuel (the fuel only needs to
    dominate the digit count, and `n` itself does). -/
def digitsLEAux : Nat → Nat → List Nat
  | 0, _ => []
  | fuel + 1, n => if n = 0 then [] else n % 10 :: digitsLEAux fuel (n / 10)

/-- Little-endian base-10 digits of `n`; empty for 0. -/
def digitsLE (n : Nat) : List Nat := digitsLEAux n n

/-- Value of a little-endian digit list. -/
def valLE : List Nat → Nat
  | [] => 0
  | d :: ds => d + 10 * valLE ds

/-- Digit characters of the scaled magnitude `m`, padded so that there is
    at least one digit left of the point, with the decimal point `k` digits
    from the right. -/
def renderPos (m k : Nat) : List Char :=
  let ds := digitsLE m
  let padded := ds ++ List.replicate (k + 1 - ds.length) 0
  ((padded.drop k).map Nat.digitChar).reverse ++ '.' :: ((padded.take k).map Nat.digitChar).reverse

/-- The decimal text a float cell receives in `df.to_csv` (app1.py line
    505): sign, integer digits, point, fraction digits, modelled at scale
    `10 ^ q.den`.  pandas prints the shortest decimal that reparses to the
    same float; the digit strings differ from this model, but the proofs
    use only the round-trip property, which both enjoy on decimal
    fractions. -/
def render (q : ℚ) : String :=
  let k := q.den
  let m := q.num * (10 : ℤ) ^ k / (q.den : ℤ)
  if m < 0 then ⟨'-' :: renderPos m.natAbs k⟩ else ⟨renderPos m.natAbs k⟩

/-- A rational is a decimal fraction when its reduced denominator divides a
    power of ten; `10 ^ q.den` is such a power whenever any is (shown in
    `dvd_ten_pow_self`). -/
def IsDecFrac (q : ℚ) : Prop := q.den ∣ 10 ^ q.den

/-- A cell a dataframe read from a CSV file can hold in a numeric column:
    a missing or text cell, or a float — floats are binary fractions, so
    the rational modelling one is a decimal fraction. -/
def decimalCell : Value → Prop
  | .num q => IsDecFrac q
  | _ => True

instance : DecidablePred IsDecFrac := fun q => by
  unfold IsDecFrac; infer_instance

instance : DecidablePred decimalCell := fun v => by
  cases v <;> unfold decimalCell <;> infer_instance

/-- The text a cell becomes in the exported CSV (app1.py line 505). -/
def exportCell : Value → String
  | .na => ""
  | .num q => render q
  | .str s => s

/-- The cell `read_csv` reconstructs from that text on re-import: an empty
    field is missing, anything else is text (numeric text is coerced later
    by the numeric-column pass; non-numeric columns keep the text). -/
def readBackCell (s : String) : Value :=
  if s.toList.isEmpty then .na else .str s

/-- Re-import of an exported row. -/
def reimportRow (row : List Value) : List Value :=
  row.map (fun v => readBackCell (exportCell v))

section FirstOkLemmas

variable {p : String → Bool}

theorem firstOk_eq_none_iff {l : List String} :
    firstOk p l = none ↔ ∀ e ∈ l, p e = false := by
  induction l with
  | nil => simp [firstOk]
  | cons e rest ih =>
    by_cases h : p e <;> simp [firstOk, h, ih]

theorem firstOk_eq_some {l : List String} {e : String} (h : firstOk p l = some e) :
    ∃ l₁ l₂, l = l₁ ++ e :: l₂ ∧ p e = true ∧ ∀ b ∈ l₁, p b = false := by
  induction l with
  | nil => simp [firstOk] at h
  | cons x rest ih =>
    by_cases hx : p x
    · simp [firstOk, hx] at h
      exact ⟨[], rest, by simp [h], by simpa [h] using hx, by simp⟩
    · simp [firstOk, hx] at h
      obtain ⟨l₁, l₂, rfl, hpe, hall⟩ := ih h
      refine ⟨x :: l₁, l₂, by simp, hpe, ?_⟩
      intro b hb
      rcases List.mem_cons.mp hb with rfl | hb
      · simpa using hx
      · exact hall b hb

theorem listIdx_append_of_not_mem {x : String} {l₁ l₂ : List String} (h : x ∉ l₁) :
    listIdx x (l₁ ++ l₂) = l₁.length + listIdx x l₂ := by
  induction l₁ with
  | nil => simp
  | cons y ys ih =>
    have hyx : y ≠ x := by
      intro he; exact h (by simp [he])
    have hx : x ∉ ys := fun hm => h (List.mem_cons_of_mem _ hm)
    simp [listIdx, hyx, ih hx]
    omega

theorem mem_of_listIdx_lt {x : String} {l₁ l₂ : List String}
    (hmem : x ∈ l₁ ++ l₂) (h : listIdx x (l₁ ++ l₂) < l₁.length) : x ∈ l₁ := by
  induction l₁ with
  | nil => simp [listIdx] at h
  | cons y ys ih =>
    by_cases hyx : y = x
    · simp [hyx]
    · have hmem2 : x ∈ ys ++ l₂ := by
        rcases List.mem_cons.mp hmem with rfl | hm
        · exact absurd rfl hyx
        · exact hm
      have h2 : listIdx x (ys ++ l₂) < ys.length := by
        simp [listIdx, hyx] at h
        omega
      exact List.mem_cons_of_mem _ (ih hmem2 h2)

end FirstOkLemmas

/-- C1: `detect_encoding` returns the first candidate (in list order) whose
    decoding of the 10000-byte sample succeeds, and the default `"utf-8"`
    when every candidate fails; consequently, whenever some candidate `E`
    decodes the sample, the returned encoding also decodes the sample and
    is at priority at most `priority E` — never a strictly worse match. -/
theorem detect_encoding_first_match (ok : String → List Nat → Bool) (f : ByteStream) :
    ((∀ e ∈ encodings, ok e ((f.data.drop f.pos).take 10000) = false) →
      (detect_encoding ok f).1 = "utf-8")
    ∧ (∀ E ∈ encodings, ok E ((f.data.drop f.pos).take 10000) = true →
        (detect_encoding ok f).1 ∈ encodings
        ∧ ok (detect_encoding ok f).1 ((f.data.drop f.pos).take 10000) = true
        ∧ priority (detect_encoding ok f).1 ≤ priority E
        ∧ ∀ e ∈ encodings, priority e < priority (detect_encoding ok f).1 →
            ok e ((f.data.drop f.pos).take 10000) = false) := by
  set sample := (f.data.drop f.pos).take 10000 with hsample
  have hread : (f.read 10000).1 = sample := by
    simp [ByteStream.read, hsample]
  constructor
  · intro hall
    have hnone : firstOk (fun enc => ok enc ((f.read 10000).1)) encodings = none := by
      rw [hread]
      exact firstOk_eq_none_iff.mpr hall
    simp [detect_encoding, ByteStream.tell, hnone]
  · intro E hE hokE
    have hnotnone : firstOk (fun enc => ok enc sample) encodings ≠ none := by
      intro hn
      have := firstOk_eq_none_iff.mp hn E hE
      rw [hokE] at this
      exact Bool.noConfusion this
    cases hfo : firstOk (fun enc => ok enc sample) encodings with
    | none => exact absurd hfo hnotnone
    | some r =>
      have hr : (detect_encoding ok f).1 = r := by
        simp [detect_encoding, ByteStream.tell, hread, hfo]
      obtain ⟨l₁, l₂, hdec, hpr, hfail⟩ := firstOk_eq_some hfo
      have hrmem : r ∈ encodings := by rw [hdec]; simp
      have hrl₁ : r ∉ l₁ := by
        intro hm
        have := hfail r hm
        rw [hpr] at this
        exact Bool.noConfusion this
      have hEl₁ : E ∉ l₁ := by
        intro hm
        have := hfail E hm
        rw [hokE] at this
        exact Bool.noConfusion this
      have hprio_r : priority r = l₁.length := by
        unfold priority
        rw [hdec, listIdx_append_of_not_mem hrl₁]
        simp [listIdx]
      refine ⟨hr ▸ hrmem, ?_, ?_, ?_⟩
      · rw [hr]; exact hpr
      · rw [hr, hprio_r]
        unfold priority
        rw [hdec, listIdx_append_of_not_mem hEl₁]
        omega
      · intro e hemem hlt
        rw [hr, hprio_r] at hlt
        have hmem' : e ∈ l₁ ++ r :: l₂ := hdec ▸ hemem
        have : e ∈ l₁ := mem_of_listIdx_lt hmem' (by
          unfold priority at hlt
          rw [hdec] at hlt
          exact hlt)
        exact hfail e this

/-- Witness for C1 at a concrete input: with an oracle under which only
    `"gbk"` decodes, the hypothesis of the priority clause holds at
    `E = "gbk"` and `detect_encoding` indeed returns a best match. -/
theorem detect_encoding_first_match_witness :
    ("gbk" ∈ encodings ∧ (fun enc (_ : List Nat) => enc == "gbk") "gbk"
        ((([2, 3, 5] : List Nat).drop 0).take 10000) = true)
    ∧ ((detect_encoding (fun enc (_ : List Nat) => enc == "gbk") ⟨[2, 3, 5], 0⟩).1 ∈ encodings
        ∧ (fun enc (_ : List Nat) => enc == "gbk")
            (detect_encoding (fun enc (_ : List Nat) => enc == "gbk") ⟨[2, 3, 5], 0⟩).1
            ((([2, 3, 5] : List Nat).drop 0).take 10000) = true
        ∧ priority (detect_encoding (fun enc (_ : List Nat) => enc == "gbk") ⟨[2, 3, 5], 0⟩).1
            ≤ priority "gbk"
        ∧ ∀ e ∈ encodings,
            priority e <
              priority (detect_encoding (fun enc (_ : List Nat) => enc == "gbk")
                ⟨[2, 3, 5], 0⟩).1 →
            (fun enc (_ : List Nat) => enc == "gbk") e
              ((([2, 3, 5] : List Nat).drop 0).take 10000) = false) :=
  ⟨⟨by decide, by decide⟩,
    (detect_encoding_first_match (fun enc (_ : List Nat) => enc == "gbk") ⟨[2, 3, 5], 0⟩).2
      "gbk" (by decide) (by decide)⟩

/-- C9: `detect_encoding` restores the stream: it saves the position with
    `tell()`, reads at most a 10000-byte sample, and seeks back, so the
    file object it returns is exactly the one it received (same bytes,
    same position), regardless of the oracle outcome. -/
theorem detect_encoding_preserves_stream (ok : String → List Nat → Bool) (f : ByteStream) :
    (detect_encoding ok f).2 = f
    ∧ ((f.read 10000).1).length ≤ 10000 := by
  constructor
  · simp only [detect_encoding, ByteStream.read, ByteStream.seek, ByteStream.tell]
    cases hfo : firstOk (fun enc => ok enc ((f.data.drop f.pos).take 10000)) encodings <;>
      simp [hfo]
  · simp [ByteStream.read]

/-- C2 (code defect): when decoding fails under the chosen encoding and
    under every candidate of the retried list, `load_data` does not reach a
    lossy warning-only load — the last-resort call passes the invalid
    keyword `errors` to `read_csv`, so it raises `TypeError` and the load
    aborts with an error and no table. -/
theorem load_data_all_fail_aborts :
    load_data (fun _ => none) (fun _ _ => false) ⟨[255, 254], 0⟩ none
      = .error (.exception "TypeError: read_csv got an unexpected keyword argument errors") := by
  rfl

theorem firstOk_eq_find? (p : String → Bool) (l : List String) :
    firstOk p l = l.find? p := by
  induction l with
  | nil => rfl
  | cons x xs ih =>
    by_cases hx : p x <;> simp [firstOk, hx, List.find?_cons, ih]

theorem find?_decomp {p : String → Bool} {l : List String} {a : String}
    (h : l.find? p = some a) :
    ∃ l₁ l₂, l = l₁ ++ a :: l₂ ∧ p a = true ∧ ∀ b ∈ l₁, p b = false := by
  rw [← firstOk_eq_find?] at h
  exact firstOk_eq_some h

theorem acFind_eq (headers : List String) {std : String} {aliases : List String}
    (hmem : (std, aliases) ∈ column_mapping) :
    acFind headers std = aliases.find? (fun n => headers.contains n) := by
  fin_cases hmem <;> rfl

/-- C3: for each canonical field of the alias table, the reconciliation
    dictionary maps it to the first alias, in declared order, that occurs
    among the actual headers, and contains the field only when some alias
    occurs. -/
theorem reconciler_first_alias (headers : List String) (std : String)
    (aliases : List String) (hmem : (std, aliases) ∈ column_mapping) :
    (acFind headers std = none ↔ ∀ a ∈ aliases, a ∉ headers)
    ∧ ∀ v, acFind headers std = some v →
        v ∈ headers ∧ ∃ pre post, aliases = pre ++ v :: post ∧ ∀ b ∈ pre, b ∉ headers := by
  rw [acFind_eq headers hmem]
  constructor
  · rw [List.find?_eq_none]
    constructor
    · intro h a ha hmem2
      exact h a ha (List.elem_iff.mpr hmem2)
    · intro h a ha hc
      exact h a ha (List.elem_iff.mp hc)
  · intro v hv
    obtain ⟨pre, post, hdec, hpv, hpre⟩ := find?_decomp hv
    refine ⟨List.elem_iff.mp hpv, pre, post, hdec, ?_⟩
    intro b hb hmem2
    have hc := hpre b hb
    exact Bool.noConfusion
      ((List.elem_iff.mpr hmem2 : headers.contains b = true).symm.trans hc)

/-- Witness for C3 at the spec's scenario: with actual headers containing
    `"SKU"` (and none of the earlier aliases of `Msku`), the canonical
    field `Msku` is reconciled, to `"SKU"`. -/
theorem reconciler_first_alias_witness :
    (("Msku", ["Msku", "MSKU", "sku", "SKU"]) ∈ column_mapping
      ∧ acFind ["店铺", "品名", "产品类别", "SKU", "日均", "上月滞销", "本月滞销"] "Msku"
          = some "SKU")
    ∧ ("SKU" ∈ ["店铺", "品名", "产品类别", "SKU", "日均", "上月滞销", "本月滞销"]
      ∧ ∃ pre post, ["Msku", "MSKU", "sku", "SKU"] = pre ++ "SKU" :: post
          ∧ ∀ b ∈ pre,
              b ∉ ["店铺", "品名", "产品类别", "SKU", "日均", "上月滞销", "本月滞销"]) :=
  ⟨⟨by decide, by decide⟩,
    (reconciler_first_alias ["店铺", "品名", "产品类别", "SKU", "日均", "上月滞销", "本月滞销"]
      "Msku" ["Msku", "MSKU", "sku", "SKU"] (by decide)).2 "SKU" (by decide)⟩

section ListHelpers

variable {α : Type}

theorem getD_set_self (l : List α) (i : Nat) (a d : α) (h : i < l.length) :
    (l.set i a).getD i d = a := by
  induction l generalizing i with
  | nil => simp at h
  | cons x xs ih =>
    cases i with
    | zero => rfl
    | succ n =>
      simp only [List.set, List.getD, List.getElem?_cons_succ] at *
      exact ih n (by simpa using h)

theorem getD_set_ne (l : List α) (i j : Nat) (a d : α) (h : i ≠ j) :
    (l.set i a).getD j d = l.getD j d := by
  induction l generalizing i j with
  | nil => simp [List.set]
  | cons x xs ih =>
    cases i with
    | zero =>
      cases j with
      | zero => exact absurd rfl h
      | succ m => rfl
    | succ n =>
      cases j with
      | zero => rfl
      | succ m =>
        simp only [List.set, List.getD, List.getElem?_cons_succ]
        exact ih n m (fun he => h (by rw [he]))

theorem getD_map (f : α → α) (l : List α) (i : Nat) (d : α) (h : i < l.length) :
    (l.map f).getD i d = f (l.getD i d) := by
  induction l generalizing i with
  | nil => simp at h
  | cons x xs ih =>
    cases i with
    | zero => rfl
    | succ n =>
      simp only [List.map, List.getD, List.getElem?_cons_succ]
      exact ih n (by simpa using h)

theorem getD_append_left (l m : List α) (i : Nat) (d : α) (h : i < l.length) :
    (l ++ m).getD i d = l.getD i d := by
  induction l generalizing i with
  | nil => simp at h
  | cons x xs ih =>
    cases i with
    | zero => rfl
    | succ n =>
      simp only [List.cons_append, List.getD, List.getElem?_cons_succ]
      exact ih n (by simpa using h)

theorem getD_append_self (l : List α) (x d : α) :
    (l ++ [x]).getD l.length d = x := by
  induction l with
  | nil => rfl
  | cons y ys ih =>
    simp only [List.cons_append, List.length_cons, List.getD, List.getElem?_cons_succ]
    exact ih

end ListHelpers

section ColIdxLemmas

theorem colIdx?_lt_length {headers : List String} {c : String} {i : Nat}
    (h : colIdx? headers c = some i) : i < headers.length := by
  induction headers generalizing i with
  | nil => simp [colIdx?] at h
  | cons x xs ih =>
    by_cases hx : x = c
    · simp [colIdx?, hx] at h
      simp only [List.length_cons]
      omega
    · simp [colIdx?, hx] at h
      obtain ⟨j, hj, rfl⟩ := h
      have := ih hj
      simp only [List.length_cons]
      omega

theorem colIdx?_getD {headers : List String} {c : String} {i : Nat}
    (h : colIdx? headers c = some i) : headers.getD i "" = c := by
  induction headers generalizing i with
  | nil => simp [colIdx?] at h
  | cons x xs ih =>
    by_cases hx : x = c
    · simp [colIdx?, hx] at h
      subst h
      simpa using hx
    · simp [colIdx?, hx] at h
      obtain ⟨j, hj, rfl⟩ := h
      simpa using ih hj

theorem colIdx?_eq_none_iff {headers : List String} {c : String} :
    colIdx? headers c = none ↔ c ∉ headers := by
  induction headers with
  | nil => simp [colIdx?]
  | cons x xs ih =>
    by_cases hx : x = c
    · subst hx
      simp [colIdx?]
    · simp only [colIdx?, if_neg hx, Option.map_eq_none', ih, List.mem_cons]
      constructor
      · intro h hm
        rcases hm with rfl | hm
        · exact hx rfl
        · exact h hm
      · intro h hm
        exact h (Or.inr hm)

theorem colIdx?_ne {headers : List String} {c d : String} {i j : Nat}
    (hc : colIdx? headers c = some i) (hd : colIdx? headers d = some j)
    (hne : c ≠ d) : i ≠ j := by
  intro he
  subst he
  have h1 := colIdx?_getD hc
  have h2 := colIdx?_getD hd
  exact hne (h1 ▸ h2 ▸ rfl)

theorem colIdx?_append_left {headers : List String} {c : String} {i : Nat}
    (h : colIdx? headers c = some i) (l : List String) :
    colIdx? (headers ++ l) c = some i := by
  induction headers generalizing i with
  | nil => simp [colIdx?] at h
  | cons x xs ih =>
    by_cases hx : x = c
    · simp [colIdx?, hx] at h ⊢
      omega
    · simp [colIdx?, hx] at h ⊢
      obtain ⟨j, hj, rfl⟩ := h
      exact ⟨j, ih hj, rfl⟩

theorem colIdx?_append_self {headers : List String} {c : String}
    (h : c ∉ headers) : colIdx? (headers ++ [c]) c = some headers.length := by
  induction headers with
  | nil => simp [colIdx?]
  | cons x xs ih =>
    have hx : x ≠ c := fun he => h (by simp [he])
    have hxs : c ∉ xs := fun hm => h (List.mem_cons_of_mem _ hm)
    simp [colIdx?, hx, ih hxs]

end ColIdxLemmas

theorem find?_contains_cons (headers : List String) (a : String) (l : List String)
    (hmem : a ∈ headers) :
    (a :: l).find? (fun n => headers.contains n) = some a := by
  exact List.find?_cons_of_pos _ (List.elem_iff.mpr hmem)

theorem acFind_self {headers : List String} {h v : String} (hmem : h ∈ headers)
    (hf : acFind headers h = some v) : v = h := by
  unfold acFind at hf
  cases hck : column_mapping.find? (fun kv => kv.1 == h) with
  | none => rw [hck] at hf; exact Option.noConfusion hf
  | some kv =>
    rw [hck] at hf
    have hkvmem := List.mem_of_find?_eq_some hck
    have hkey : kv.1 = h := by
      have := List.find?_some hck
      simpa using this
    fin_cases hkvmem <;>
      (simp only at hkey hf; subst hkey;
       exact (Option.some.inj ((find?_contains_cons headers _ _ hmem).symm.trans hf)).symm)

theorem renameHeader_eq_self {headers : List String} {h : String} (hm : h ∈ headers) :
    renameHeader headers h = h := by
  unfold renameHeader
  cases hf : acFind headers h with
  | none => rfl
  | some v => exact acFind_self hm hf

theorem renameDF_eq_self (df : DataFrame) : renameDF df = df := by
  have hmap : ∀ hs : List String, (∀ h ∈ hs, h ∈ df.headers) →
      hs.map (renameHeader df.headers) = hs := by
    intro hs
    induction hs with
    | nil => intro _; rfl
    | cons x xs ih =>
      intro hsub
      have hx : renameHeader df.headers x = x := renameHeader_eq_self (hsub x (by simp))
      have hxs := ih (fun h hm => hsub h (List.mem_cons_of_mem _ hm))
      simp [hx, hxs]
  unfold renameDF
  rw [hmap df.headers (fun h hm => hm)]

/-- C4: a file whose headers contain no alias of some required canonical
    field is rejected: `process` returns no table but the missing-columns
    report, which lists exactly the required fields having no alias among
    the headers and carries the full actual header list. -/
theorem load_rejects_missing_columns (df : DataFrame)
    (h : ∃ c ∈ required_columns, acFind df.headers c = none) :
    process df = .error (.missingColumns (missingOf df.headers) df.headers)
    ∧ missingOf df.headers ≠ []
    ∧ ∀ c aliases, (c, aliases) ∈ column_mapping →
        (c ∈ missingOf df.headers ↔
          c ∈ required_columns ∧ ∀ a ∈ aliases, a ∉ df.headers) := by
  obtain ⟨c0, hc0r, hc0n⟩ := h
  have hmem : c0 ∈ missingOf df.headers :=
    List.mem_filter.mpr ⟨hc0r, by simp [hc0n]⟩
  have hne : missingOf df.headers ≠ [] := by
    intro he
    rw [he] at hmem
    exact List.not_mem_nil c0 hmem
  have hemp : (missingOf df.headers).isEmpty = false := by
    cases hml : missingOf df.headers with
    | nil => exact absurd hml hne
    | cons a l => rfl
  refine ⟨?_, hne, ?_⟩
  · simp only [process, hemp, Bool.false_eq_true, if_false]
  · intro c aliases hca
    have heq := acFind_eq df.headers hca
    rw [missingOf, List.mem_filter]
    constructor
    · rintro ⟨hr, hn⟩
      refine ⟨hr, ?_⟩
      have hnone : acFind df.headers c = none := by
        cases hAC : acFind df.headers c with
        | none => rfl
        | some u => rw [hAC] at hn; exact Bool.noConfusion hn
      rw [heq] at hnone
      intro a ha hmem2
      exact (List.find?_eq_none.mp hnone a ha) (List.elem_iff.mpr hmem2)
    · rintro ⟨hr, hall⟩
      refine ⟨hr, ?_⟩
      have hnone : acFind df.headers c = none := by
        rw [heq]
        refine List.find?_eq_none.mpr ?_
        intro a ha hc2
        exact hall a ha (List.elem_iff.mp hc2)
      simp [hnone]

/-- Witness for C4 at the spec's scenario: a header set missing every alias
    of 日均 is rejected, naming exactly that field and echoing the header
    list. -/
theorem load_rejects_missing_columns_witness :
    (∃ c ∈ required_columns,
        acFind ["店铺", "品名", "产品类别", "Msku", "上月滞销", "本月滞销"] c = none)
    ∧ process ⟨["店铺", "品名", "产品类别", "Msku", "上月滞销", "本月滞销"], []⟩
        = .error (.missingColumns ["日均"]
            ["店铺", "品名", "产品类别", "Msku", "上月滞销", "本月滞销"]) := by
  refine ⟨by decide, ?_⟩
  have h := (load_rejects_missing_columns
    ⟨["店铺", "品名", "产品类别", "Msku", "上月滞销", "本月滞销"], []⟩ (by decide)).1
  have he : missingOf ["店铺", "品名", "产品类别", "Msku", "上月滞销", "本月滞销"]
      = ["日均"] := by decide
  rw [he] at h
  exact h

theorem fillna_headers (df : DataFrame) : (fillna df).headers = df.headers := rfl

theorem fillna_rows (df : DataFrame) :
    (fillna df).rows = df.rows.map (fun r => r.map fill_cell) := rfl

theorem fill_cell_ne_na (v : Value) : fill_cell v ≠ .na := by
  cases v <;> simp [fill_cell]

theorem fill_to_numeric_num (v : Value) :
    ∃ q : ℚ, fill_cell (to_numeric_cell v) = .num q := by
  cases v with
  | na => exact ⟨0, rfl⟩
  | num q => exact ⟨q, rfl⟩
  | str s =>
    cases hp : parseNum s with
    | some q => exact ⟨q, by simp [to_numeric_cell, hp, fill_cell]⟩
    | none => exact ⟨0, by simp [to_numeric_cell, hp, fill_cell]⟩

theorem applyAt_length (i : Nat) (f : Value → Value) (r : List Value) :
    (applyAt i f r).length = r.length := by
  simp [applyAt]

theorem applyAt_getD_self {i : Nat} (f : Value → Value) {r : List Value}
    (h : i < r.length) :
    (applyAt i f r).getD i .na = f (r.getD i .na) :=
  getD_set_self r i _ _ h

theorem applyAt_getD_ne {i j : Nat} (f : Value → Value) (r : List Value)
    (h : i ≠ j) :
    (applyAt i f r).getD j .na = r.getD j .na :=
  getD_set_ne r i j _ _ h

theorem mem_applyAt {v : Value} {i : Nat} {f : Value → Value} {r : List Value}
    (h : v ∈ applyAt i f r) : v ∈ r ∨ ∃ u, v = f u := by
  rcases List.mem_or_eq_of_mem_set h with hm | he
  · exact Or.inl hm
  · exact Or.inr ⟨_, he⟩

theorem coerceCols_numeric (df : DataFrame) {i1 i2 i3 : Nat}
    (h1 : colIdx? df.headers "日均" = some i1)
    (h2 : colIdx? df.headers "上月滞销" = some i2)
    (h3 : colIdx? df.headers "本月滞销" = some i3) :
    coerceCols numeric_columns df
      = .ok ⟨df.headers, df.rows.map (fun r =>
          applyAt i3 to_numeric_cell (applyAt i2 to_numeric_cell
            (applyAt i1 to_numeric_cell r)))⟩ := by
  simp [numeric_columns, coerceCols, h1, h2, h3, List.map_map, Function.comp_def]

theorem setColWith_spec (df : DataFrame) (c : String) (g : List Value → Value)
    (hrect : ∀ r ∈ df.rows, r.length = df.headers.length) :
    ∃ extra j T,
      (setColWith df c g).headers = df.headers ++ extra
      ∧ colIdx? (setColWith df c g).headers c = some j
      ∧ (setColWith df c g).rows = df.rows.map T
      ∧ (∀ r ∈ df.rows, (T r).length = (setColWith df c g).headers.length)
      ∧ (∀ r ∈ df.rows, (T r).getD j .na = g r)
      ∧ (∀ r ∈ df.rows, ∀ jj, jj ≠ j → (T r).getD jj .na = r.getD jj .na)
      ∧ (∀ r ∈ df.rows, ∀ v ∈ T r, v = g r ∨ v ∈ r) := by
  cases hcx : colIdx? df.headers c with
  | some j =>
    have hs : setColWith df c g
        = { df with rows := df.rows.map (fun r => r.set j (g r)) } := by
      unfold setColWith
      rw [hcx]
    rw [hs]
    refine ⟨[], j, fun r => r.set j (g r), by simp, by simpa using hcx, rfl, ?_, ?_, ?_, ?_⟩
    · intro r hr
      simp [hrect r hr]
    · intro r hr
      have hj : j < r.length := by
        rw [hrect r hr]
        exact colIdx?_lt_length hcx
      exact getD_set_self r j _ _ hj
    · intro r _ jj hne
      exact getD_set_ne r j jj _ _ (fun he => hne he.symm)
    · intro r _ v hv
      rcases List.mem_or_eq_of_mem_set hv with hm | he
      · exact Or.inr hm
      · exact Or.inl he
  | none =>
    have hnotmem : c ∉ df.headers := colIdx?_eq_none_iff.mp hcx
    have hs : setColWith df c g
        = { headers := df.headers ++ [c], rows := df.rows.map (fun r => r ++ [g r]) } := by
      unfold setColWith
      rw [hcx]
    rw [hs]
    refine ⟨[c], df.headers.length, fun r => r ++ [g r], rfl,
      colIdx?_append_self hnotmem, rfl, ?_, ?_, ?_, ?_⟩
    · intro r hr
      simp [hrect r hr]
    · intro r hr
      rw [← hrect r hr]
      exact getD_append_self r (g r) .na
    · intro r hr jj hne
      rcases Nat.lt_trichotomy jj r.length with hlt | heq | hgt
      · exact getD_append_left r [g r] jj .na hlt
      · rw [hrect r hr] at heq
        exact absurd heq hne
      · rw [List.getD_eq_default, List.getD_eq_default]
        · omega
        · simp
          omega
    · intro r _ v hv
      rcases List.mem_append.mp hv with hm | hm
      · exact Or.inr hm
      · rw [List.mem_singleton] at hm
        exact Or.inl hm

theorem deriveStep_spec (df3 : DataFrame) {i2 i3 : Nat}
    (hrect : ∀ r ∈ df3.rows, r.length = df3.headers.length)
    (h2 : colIdx? df3.headers "上月滞销" = some i2)
    (h3 : colIdx? df3.headers "本月滞销" = some i3) :
    ∃ extra T,
      (deriveStep df3).headers = df3.headers ++ extra
      ∧ (∃ ja, colIdx? (deriveStep df3).headers "滞销数量变化" = some ja)
      ∧ (∃ jb, colIdx? (deriveStep df3).headers "变化百分比" = some jb)
      ∧ (deriveStep df3).rows = df3.rows.map T
      ∧ (∀ r ∈ df3.rows, (T r).length = (deriveStep df3).headers.length)
      ∧ ∀ r ∈ df3.rows,
          (∀ j, j < df3.headers.length →
            df3.headers.getD j "" ≠ "滞销数量变化" →
            df3.headers.getD j "" ≠ "变化百分比" →
            (T r).getD j .na = r.getD j .na)
          ∧ ∀ a b : ℚ, r.getD i2 .na = .num a → r.getD i3 .na = .num b →
              getCell (deriveStep df3).headers (T r) "上月滞销" = .num a
              ∧ getCell (deriveStep df3).headers (T r) "本月滞销" = .num b
              ∧ getCell (deriveStep df3).headers (T r) "滞销数量变化" = .num (b - a)
              ∧ getCell (deriveStep df3).headers (T r) "变化百分比"
                  = .num ((b - a) / (if a = 0 then 1 else a) * 100)
              ∧ (∀ v ∈ T r, v ∈ r ∨ ∃ q : ℚ, v = Value.num q) := by
  set g1 : List Value → Value := fun r =>
    value_sub (getCell df3.headers r "本月滞销") (getCell df3.headers r "上月滞销") with hg1
  set df4 : DataFrame := setColWith df3 "滞销数量变化" g1 with hdf4
  set g2 : List Value → Value := fun r =>
    value_pct (getCell df4.headers r "滞销数量变化")
      (replace_zero_one (getCell df4.headers r "上月滞销")) with hg2
  have hDD : deriveStep df3 = setColWith df4 "变化百分比" g2 := rfl
  rw [hDD]
  obtain ⟨e4, j4, T4, hH4, hj4, hrows4, hlen4, hset4, hpres4, hmem4⟩ :=
    setColWith_spec df3 "滞销数量变化" g1 hrect
  have rect4 : ∀ r4 ∈ df4.rows, r4.length = df4.headers.length := by
    rw [hrows4]
    intro r4 hr4
    obtain ⟨r, hr, rfl⟩ := List.mem_map.mp hr4
    exact hlen4 r hr
  obtain ⟨e5, j5, T5, hH5, hj5, hrows5, hlen5, hset5, hpres5, hmem5⟩ :=
    setColWith_spec df4 "变化百分比" g2 rect4
  have hc1d5 : colIdx? (setColWith df4 "变化百分比" g2).headers "滞销数量变化" = some j4 := by
    rw [hH5]
    exact colIdx?_append_left hj4 e5
  have h2d4 : colIdx? df4.headers "上月滞销" = some i2 := by
    rw [hH4]
    exact colIdx?_append_left h2 e4
  have h3d4 : colIdx? df4.headers "本月滞销" = some i3 := by
    rw [hH4]
    exact colIdx?_append_left h3 e4
  have h2d5 : colIdx? (setColWith df4 "变化百分比" g2).headers "上月滞销" = some i2 := by
    rw [hH5]
    exact colIdx?_append_left h2d4 e5
  have h3d5 : colIdx? (setColWith df4 "变化百分比" g2).headers "本月滞销" = some i3 := by
    rw [hH5]
    exact colIdx?_append_left h3d4 e5
  refine ⟨e4 ++ e5, fun r => T5 (T4 r), ?_, ⟨j4, hc1d5⟩, ⟨j5, hj5⟩, ?_, ?_, ?_⟩
  · rw [hH5, hH4, List.append_assoc]
  · rw [hrows5, hrows4, List.map_map]
    rfl
  · intro r hr
    dsimp only
    have hr4mem : T4 r ∈ df4.rows := by
      rw [hrows4]
      exact List.mem_map_of_mem _ hr
    exact hlen5 (T4 r) hr4mem
  · intro r hr
    dsimp only
    have hr4mem : T4 r ∈ df4.rows := by
      rw [hrows4]
      exact List.mem_map_of_mem _ hr
    constructor
    · intro j hjlt hne1 hne2
      have hj4lab : df4.headers.getD j4 "" = "滞销数量变化" := colIdx?_getD hj4
      have hjne4 : j ≠ j4 := by
        intro he
        subst he
        rw [hH4, getD_append_left _ _ _ _ hjlt] at hj4lab
        exact hne1 hj4lab
      have hjlt4 : j < df4.headers.length := by
        rw [hH4, List.length_append]
        omega
      have hj5lab : (setColWith df4 "变化百分比" g2).headers.getD j5 "" = "变化百分比" :=
        colIdx?_getD hj5
      have hjne5 : j ≠ j5 := by
        intro he
        subst he
        rw [hH5, getD_append_left _ _ _ _ hjlt4, hH4,
          getD_append_left _ _ _ _ hjlt] at hj5lab
        exact hne2 hj5lab
      rw [hpres5 (T4 r) hr4mem j hjne5, hpres4 r hr j hjne4]
    · intro a b ha hb
      have hg1r : g1 r = .num (b - a) := by
        have hcell2 : getCell df3.headers r "上月滞销" = .num a := by
          unfold getCell
          rw [h2]
          exact ha
        have hcell3 : getCell df3.headers r "本月滞销" = .num b := by
          unfold getCell
          rw [h3]
          exact hb
        rw [hg1]
        dsimp only
        rw [hcell2, hcell3]
        rfl
      have hne24 : i2 ≠ j4 := colIdx?_ne h2d4 hj4 (by decide)
      have hne34 : i3 ≠ j4 := colIdx?_ne h3d4 hj4 (by decide)
      have hT4i2 : (T4 r).getD i2 .na = .num a := by
        rw [hpres4 r hr i2 hne24]
        exact ha
      have hT4i3 : (T4 r).getD i3 .na = .num b := by
        rw [hpres4 r hr i3 hne34]
        exact hb
      have hT4j4 : (T4 r).getD j4 .na = .num (b - a) := by
        rw [hset4 r hr]
        exact hg1r
      have hg2r : g2 (T4 r) = .num ((b - a) / (if a = 0 then 1 else a) * 100) := by
        have hga : getCell df4.headers (T4 r) "滞销数量变化" = .num (b - a) := by
          unfold getCell
          rw [hj4]
          exact hT4j4
        have hgb : getCell df4.headers (T4 r) "上月滞销" = .num a := by
          unfold getCell
          rw [h2d4]
          exact hT4i2
        rw [hg2]
        dsimp only
        rw [hga, hgb]
        rfl
      have hne25 : i2 ≠ j5 := colIdx?_ne h2d5 hj5 (by decide)
      have hne35 : i3 ≠ j5 := colIdx?_ne h3d5 hj5 (by decide)
      have hne45 : j4 ≠ j5 := colIdx?_ne hc1d5 hj5 (by decide)
      refine ⟨?_, ?_, ?_, ?_, ?_⟩
      · unfold getCell
        rw [h2d5]
        dsimp only
        rw [hpres5 (T4 r) hr4mem i2 hne25]
        exact hT4i2
      · unfold getCell
        rw [h3d5]
        dsimp only
        rw [hpres5 (T4 r) hr4mem i3 hne35]
        exact hT4i3
      · unfold getCell
        rw [hc1d5]
        dsimp only
        rw [hpres5 (T4 r) hr4mem j4 hne45]
        exact hT4j4
      · unfold getCell
        rw [hj5]
        dsimp only
        rw [hset5 (T4 r) hr4mem]
        exact hg2r
      · intro v hv
        rcases hmem5 (T4 r) hr4mem v hv with he | hm4
        · exact Or.inr ⟨_, by rw [he, hg2r]⟩
        · rcases hmem4 r hr v hm4 with he | hmr
          · exact Or.inr ⟨_, by rw [he, hg1r]⟩
          · exact Or.inl hmr

theorem coerce_chain_getD (r : List Value) {i1 i2 i3 : Nat}
    (hi12 : i1 ≠ i2) (hi13 : i1 ≠ i3) (hi23 : i2 ≠ i3)
    (j : Nat) (hj : j < r.length) :
    (applyAt i3 to_numeric_cell (applyAt i2 to_numeric_cell
        (applyAt i1 to_numeric_cell r))).getD j .na
      = if j = i1 ∨ j = i2 ∨ j = i3
          then to_numeric_cell (r.getD j .na) else r.getD j .na := by
  by_cases hj1 : j = i1
  · subst hj1
    rw [if_pos (Or.inl rfl)]
    rw [applyAt_getD_ne _ _ (Ne.symm hi13), applyAt_getD_ne _ _ (Ne.symm hi12)]
    exact applyAt_getD_self _ hj
  · by_cases hj2 : j = i2
    · subst hj2
      rw [if_pos (Or.inr (Or.inl rfl))]
      rw [applyAt_getD_ne _ _ (Ne.symm hi23)]
      have hlen1 : j < (applyAt i1 to_numeric_cell r).length := by
        rw [applyAt_length]
        exact hj
      rw [applyAt_getD_self _ hlen1, applyAt_getD_ne _ _ hi12]
    · by_cases hj3 : j = i3
      · subst hj3
        rw [if_pos (Or.inr (Or.inr rfl))]
        have hlen2 : j < (applyAt i2 to_numeric_cell
            (applyAt i1 to_numeric_cell r)).length := by
          rw [applyAt_length, applyAt_length]
          exact hj
        rw [applyAt_getD_self _ hlen2, applyAt_getD_ne _ _ hi23,
          applyAt_getD_ne _ _ hi13]
      · rw [if_neg (by tauto)]
        rw [applyAt_getD_ne _ _ (fun he => hj3 he.symm),
          applyAt_getD_ne _ _ (fun he => hj2 he.symm),
          applyAt_getD_ne _ _ (fun he => hj1 he.symm)]

theorem process_ok_struct (df : DataFrame) {i1 i2 i3 : Nat}
    (hrect : ∀ r ∈ df.rows, r.length = df.headers.length)
    (hm : missingOf df.headers = [])
    (h1 : colIdx? df.headers "日均" = some i1)
    (h2 : colIdx? df.headers "上月滞销" = some i2)
    (h3 : colIdx? df.headers "本月滞销" = some i3) :
    ∃ out : DataFrame,
      process df = .ok out
      ∧ (∃ extra, out.headers = df.headers ++ extra)
      ∧ (∀ c i, colIdx? df.headers c = some i → colIdx? out.headers c = some i)
      ∧ (∃ ja, colIdx? out.headers "滞销数量变化" = some ja)
      ∧ (∃ jb, colIdx? out.headers "变化百分比" = some jb)
      ∧ (∀ r2 ∈ out.rows, r2.length = out.headers.length)
      ∧ ∃ T : List Value → List Value, out.rows = df.rows.map T
          ∧ ∀ r ∈ df.rows,
              (∃ prev cur : ℚ,
                fill_cell (to_numeric_cell (r.getD i2 .na)) = .num prev
                ∧ fill_cell (to_numeric_cell (r.getD i3 .na)) = .num cur
                ∧ getCell out.headers (T r) "上月滞销" = .num prev
                ∧ getCell out.headers (T r) "本月滞销" = .num cur
                ∧ getCell out.headers (T r) "滞销数量变化" = .num (cur - prev)
                ∧ getCell out.headers (T r) "变化百分比"
                    = .num ((cur - prev) / (if prev = 0 then 1 else prev) * 100))
              ∧ (∀ v ∈ T r, v ≠ Value.na)
              ∧ (∀ j, j < df.headers.length →
                  df.headers.getD j "" ≠ "滞销数量变化" →
                  df.headers.getD j "" ≠ "变化百分比" →
                  (T r).getD j .na
                    = fill_cell (if j = i1 ∨ j = i2 ∨ j = i3
                        then to_numeric_cell (r.getD j .na) else r.getD j .na)) := by
  have hi12 : i1 ≠ i2 := colIdx?_ne h1 h2 (by decide)
  have hi13 : i1 ≠ i3 := colIdx?_ne h1 h3 (by decide)
  have hi23 : i2 ≠ i3 := colIdx?_ne h2 h3 (by decide)
  have hemp : (missingOf df.headers).isEmpty = true := by
    rw [hm]
    rfl
  have hco := coerceCols_numeric df h1 h2 h3
  set CF : List Value → List Value := fun r =>
    applyAt i3 to_numeric_cell (applyAt i2 to_numeric_cell
      (applyAt i1 to_numeric_cell r)) with hCF
  set df3 : DataFrame := fillna ⟨df.headers, df.rows.map CF⟩ with hdf3
  have hp : process df = .ok (deriveStep df3) := by
    simp only [process, hemp, if_true, renameDF_eq_self, hco]
  have hH3 : df3.headers = df.headers := rfl
  have hrows3 : df3.rows = df.rows.map (fun r => (CF r).map fill_cell) := by
    rw [hdf3, fillna_rows]
    simp [List.map_map, Function.comp_def]
  have hCFlen : ∀ r : List Value, (CF r).length = r.length := by
    intro r
    rw [hCF]
    dsimp only
    rw [applyAt_length, applyAt_length, applyAt_length]
  have rect3 : ∀ r3 ∈ df3.rows, r3.length = df3.headers.length := by
    rw [hrows3, hH3]
    intro r3 hr3
    obtain ⟨r, hr, rfl⟩ := List.mem_map.mp hr3
    rw [List.length_map, hCFlen]
    exact hrect r hr
  have h2d3 : colIdx? df3.headers "上月滞销" = some i2 := h2
  have h3d3 : colIdx? df3.headers "本月滞销" = some i3 := h3
  obtain ⟨extra, T0, hHD, hja, hjb, hrowsD, hlenD, hcellD⟩ :=
    deriveStep_spec df3 rect3 h2d3 h3d3
  refine ⟨deriveStep df3, hp, ⟨extra, by rw [hHD, hH3]⟩, ?_, hja, hjb, ?_,
    ⟨fun r => T0 ((CF r).map fill_cell), ?_, ?_⟩⟩
  · intro c i hc
    rw [hHD, hH3]
    exact colIdx?_append_left hc extra
  · intro r2 hr2
    rw [hrowsD] at hr2
    obtain ⟨r3, hr3, rfl⟩ := List.mem_map.mp hr2
    exact hlenD r3 hr3
  · rw [hrowsD, hrows3, List.map_map]
    rfl
  · intro r hr
    have hr3mem : (CF r).map fill_cell ∈ df3.rows := by
      rw [hrows3]
      exact List.mem_map_of_mem _ hr
    obtain ⟨hpresD, habD⟩ := hcellD ((CF r).map fill_cell) hr3mem
    have hrlen : r.length = df.headers.length := hrect r hr
    have hget3 : ∀ j, j < df.headers.length →
        ((CF r).map fill_cell).getD j .na
          = fill_cell (if j = i1 ∨ j = i2 ∨ j = i3
              then to_numeric_cell (r.getD j .na) else r.getD j .na) := by
      intro j hjlt
      have hjr : j < r.length := by rw [hrlen]; exact hjlt
      have hjcf : j < (CF r).length := by rw [hCFlen]; exact hjr
      rw [getD_map _ _ _ _ hjcf]
      rw [hCF]
      dsimp only
      rw [coerce_chain_getD r hi12 hi13 hi23 j hjr]
    obtain ⟨prev, hprev⟩ := fill_to_numeric_num (r.getD i2 .na)
    obtain ⟨cur, hcur⟩ := fill_to_numeric_num (r.getD i3 .na)
    have hga : ((CF r).map fill_cell).getD i2 .na = .num prev := by
      rw [hget3 i2 (colIdx?_lt_length h2), if_pos (Or.inr (Or.inl rfl))]
      exact hprev
    have hgb : ((CF r).map fill_cell).getD i3 .na = .num cur := by
      rw [hget3 i3 (colIdx?_lt_length h3), if_pos (Or.inr (Or.inr rfl))]
      exact hcur
    obtain ⟨hc2, hc3, hcc1, hcc2, hmemD⟩ := habD prev cur hga hgb
    refine ⟨⟨prev, cur, hprev, hcur, hc2, hc3, hcc1, hcc2⟩, ?_, ?_⟩
    · intro v hv
      rcases hmemD v hv with hvr | ⟨q, rfl⟩
      · obtain ⟨u, _, rfl⟩ := List.mem_map.mp hvr
        exact fill_cell_ne_na u
      · exact fun he => Value.noConfusion he
    · intro j hjlt hne1 hne2
      rw [hpresD j (by rw [hH3]; exact hjlt) (by rw [hH3]; exact hne1)
        (by rw [hH3]; exact hne2)]
      exact hget3 j hjlt

theorem process_ok_conditions {df out : DataFrame} (h : process df = .ok out) :
    missingOf df.headers = []
    ∧ (∃ i1, colIdx? df.headers "日均" = some i1)
    ∧ (∃ i2, colIdx? df.headers "上月滞销" = some i2)
    ∧ (∃ i3, colIdx? df.headers "本月滞销" = some i3) := by
  by_cases hemp : (missingOf df.headers).isEmpty = true
  · have hm : missingOf df.headers = [] := List.isEmpty_iff.mp hemp
    refine ⟨hm, ?_⟩
    cases hc1 : colIdx? df.headers "日均" with
    | none =>
      exfalso
      have herr : process df = .error (.exception ("KeyError: " ++ "日均")) := by
        simp only [process, hemp, if_true, renameDF_eq_self, numeric_columns,
          coerceCols, hc1]
      rw [herr] at h
      exact Except.noConfusion h
    | some i1 =>
      cases hc2 : colIdx? df.headers "上月滞销" with
      | none =>
        exfalso
        have herr : process df = .error (.exception ("KeyError: " ++ "上月滞销")) := by
          simp only [process, hemp, if_true, renameDF_eq_self, numeric_columns,
            coerceCols, hc1, hc2]
        rw [herr] at h
        exact Except.noConfusion h
      | some i2 =>
        cases hc3 : colIdx? df.headers "本月滞销" with
        | none =>
          exfalso
          have herr : process df = .error (.exception ("KeyError: " ++ "本月滞销")) := by
            simp only [process, hemp, if_true, renameDF_eq_self, numeric_columns,
              coerceCols, hc1, hc2, hc3]
          rw [herr] at h
          exact Except.noConfusion h
        | some i3 =>
          exact ⟨⟨i1, rfl⟩, ⟨i2, rfl⟩, ⟨i3, rfl⟩⟩
  · exfalso
    have hembool : (missingOf df.headers).isEmpty = false := by
      cases hb : (missingOf df.headers).isEmpty with
      | false => rfl
      | true => exact absurd hb hemp
    have herr : process df
        = .error (.missingColumns (missingOf df.headers) df.headers) := by
      simp only [process, hembool, Bool.false_eq_true, if_false]
    rw [herr] at h
    exact Except.noConfusion h

/-- C5: in every successfully loaded table, each row's 滞销数量变化 cell is
    current minus previous and its 变化百分比 cell is that change divided by
    the previous value (1 when the previous value is 0) times 100. -/
theorem derived_metrics_correct (df out : DataFrame)
    (hrect : ∀ r ∈ df.rows, r.length = df.headers.length)
    (hok : process df = .ok out) :
    ∀ row ∈ out.rows, ∃ prev cur : ℚ,
      getCell out.headers row "上月滞销" = .num prev
      ∧ getCell out.headers row "本月滞销" = .num cur
      ∧ getCell out.headers row "滞销数量变化" = .num (cur - prev)
      ∧ getCell out.headers row "变化百分比"
          = .num ((cur - prev) / (if prev = 0 then 1 else prev) * 100) := by
  obtain ⟨hm, ⟨i1, h1⟩, ⟨i2, h2⟩, ⟨i3, h3⟩⟩ := process_ok_conditions hok
  obtain ⟨out2, hp2, _, _, _, _, _, T, hrows, hcell⟩ :=
    process_ok_struct df hrect hm h1 h2 h3
  rw [hok] at hp2
  obtain rfl : out2 = out := Except.ok.inj hp2.symm
  intro row hrow
  rw [hrows] at hrow
  obtain ⟨r, hr, rfl⟩ := List.mem_map.mp hrow
  obtain ⟨⟨prev, cur, _, _, hc2, hc3, hcc1, hcc2⟩, _, _⟩ := hcell r hr
  exact ⟨prev, cur, hc2, hc3, hcc1, hcc2⟩

/-- Witness for C5 at the spec's two scenario rows: (10, 100, 120) yields
    change 20 and percent 20, and (5, 0, 10) yields change 10 and percent
    1000 through the zero guard. -/
theorem derived_metrics_correct_witness :
    (∀ r ∈ ([[.str "StoreA", .str "ProdA", .str "Cat1", .str "SKU1",
          .num 10, .num 100, .num 120],
        [.str "StoreA", .str "ProdB", .str "Cat1", .str "SKU2",
          .num 5, .num 0, .num 10]] : List (List Value)), r.length
        = (["店铺", "品名", "产品类别", "Msku", "日均", "上月滞销", "本月滞销"] : List String).length)
    ∧ process ⟨["店铺", "品名", "产品类别", "Msku", "日均", "上月滞销", "本月滞销"],
        [[.str "StoreA", .str "ProdA", .str "Cat1", .str "SKU1",
            .num 10, .num 100, .num 120],
         [.str "StoreA", .str "ProdB", .str "Cat1", .str "SKU2",
            .num 5, .num 0, .num 10]]⟩
      = .ok ⟨["店铺", "品名", "产品类别", "Msku", "日均", "上月滞销", "本月滞销",
          "滞销数量变化", "变化百分比"],
        [[.str "StoreA", .str "ProdA", .str "Cat1", .str "SKU1",
            .num 10, .num 100, .num 120, .num (120 - 100),
            .num ((120 - 100) / (if (100 : ℚ) = 0 then 1 else 100) * 100)],
         [.str "StoreA", .str "ProdB", .str "Cat1", .str "SKU2",
            .num 5, .num 0, .num 10, .num (10 - 0),
            .num ((10 - 0) / (if (0 : ℚ) = 0 then 1 else 0) * 100)]]⟩
    ∧ (∀ row ∈ ([[.str "StoreA", .str "ProdA", .str "Cat1", .str "SKU1",
          .num 10, .num 100, .num 120, .num (120 - 100),
          .num ((120 - 100) / (if (100 : ℚ) = 0 then 1 else 100) * 100)],
        [.str "StoreA", .str "ProdB", .str "Cat1", .str "SKU2",
          .num 5, .num 0, .num 10, .num (10 - 0),
          .num ((10 - 0) / (if (0 : ℚ) = 0 then 1 else 0) * 100)]] : List (List Value)),
        ∃ prev cur : ℚ,
          getCell ["店铺", "品名", "产品类别", "Msku", "日均", "上月滞销", "本月滞销",
            "滞销数量变化", "变化百分比"] row "上月滞销" = .num prev
          ∧ getCell ["店铺", "品名", "产品类别", "Msku", "日均", "上月滞销", "本月滞销",
              "滞销数量变化", "变化百分比"] row "本月滞销" = .num cur
          ∧ getCell ["店铺", "品名", "产品类别", "Msku", "日均", "上月滞销", "本月滞销",
              "滞销数量变化", "变化百分比"] row "滞销数量变化" = .num (cur - prev)
          ∧ getCell ["店铺", "品名", "产品类别", "Msku", "日均", "上月滞销", "本月滞销",
              "滞销数量变化", "变化百分比"] row "变化百分比"
              = .num ((cur - prev) / (if prev = 0 then 1 else prev) * 100))
    ∧ Value.num ((120 : ℚ) - 100) = Value.num 20
    ∧ Value.num (((120 : ℚ) - 100) / (if (100 : ℚ) = 0 then 1 else 100) * 100)
        = Value.num 20
    ∧ Value.num ((10 : ℚ) - 0) = Value.num 10
    ∧ Value.num (((10 : ℚ) - 0) / (if (0 : ℚ) = 0 then 1 else 0) * 100)
        = Value.num 1000 := by
  refine ⟨by decide, rfl,
    derived_metrics_correct
      ⟨["店铺", "品名", "产品类别", "Msku", "日均", "上月滞销", "本月滞销"],
        [[.str "StoreA", .str "ProdA", .str "Cat1", .str "SKU1",
            .num 10, .num 100, .num 120],
         [.str "StoreA", .str "ProdB", .str "Cat1", .str "SKU2",
            .num 5, .num 0, .num 10]]⟩
      ⟨["店铺", "品名", "产品类别", "Msku", "日均", "上月滞销", "本月滞销",
          "滞销数量变化", "变化百分比"],
        [[.str "StoreA", .str "ProdA", .str "Cat1", .str "SKU1",
            .num 10, .num 100, .num 120, .num (120 - 100),
            .num ((120 - 100) / (if (100 : ℚ) = 0 then 1 else 100) * 100)],
         [.str "StoreA", .str "ProdB", .str "Cat1", .str "SKU2",
            .num 5, .num 0, .num 10, .num (10 - 0),
            .num ((10 - 0) / (if (0 : ℚ) = 0 then 1 else 0) * 100)]]⟩
      (by decide) rfl, ?_, ?_, ?_, ?_⟩ <;>
    simp only [Value.num.injEq] <;> norm_num

/-- C6: in every successfully loaded table the change-percent computation
    divides by `replace_zero_one` of the previous-period cell, which is 1
    when that cell is 0 and hence never the number zero — the quotient is a
    well-defined rational for every row. -/
theorem change_percent_guard (df out : DataFrame)
    (hrect : ∀ r ∈ df.rows, r.length = df.headers.length)
    (hok : process df = .ok out) :
    ∀ row ∈ out.rows, ∃ prev chg : ℚ,
      getCell out.headers row "上月滞销" = .num prev
      ∧ getCell out.headers row "滞销数量变化" = .num chg
      ∧ replace_zero_one (getCell out.headers row "上月滞销")
          = .num (if prev = 0 then 1 else prev)
      ∧ (if prev = 0 then (1 : ℚ) else prev) ≠ 0
      ∧ getCell out.headers row "变化百分比"
          = .num (chg / (if prev = 0 then 1 else prev) * 100) := by
  obtain ⟨hm, ⟨i1, h1⟩, ⟨i2, h2⟩, ⟨i3, h3⟩⟩ := process_ok_conditions hok
  obtain ⟨out2, hp2, _, _, _, _, _, T, hrows, hcell⟩ :=
    process_ok_struct df hrect hm h1 h2 h3
  rw [hok] at hp2
  obtain rfl : out2 = out := Except.ok.inj hp2.symm
  intro row hrow
  rw [hrows] at hrow
  obtain ⟨r, hr, rfl⟩ := List.mem_map.mp hrow
  obtain ⟨⟨prev, cur, _, _, hc2, _, hcc1, hcc2⟩, _, _⟩ := hcell r hr
  refine ⟨prev, cur - prev, hc2, hcc1, ?_, ?_, hcc2⟩
  · rw [hc2]
    rfl
  · by_cases hp : prev = 0
    · rw [if_pos hp]
      exact one_ne_zero
    · rw [if_neg hp]
      exact hp

/-- Witness for C6 at the zero-guard scenario row (5, 0, 10): the
    previous-period cell is 0, the divisor used is 1, not 0. -/
theorem change_percent_guard_witness :
    (∀ r ∈ ([[.str "StoreA", .str "ProdB", .str "Cat1", .str "SKU2",
          .num 5, .num 0, .num 10]] : List (List Value)), r.length
        = (["店铺", "品名", "产品类别", "Msku", "日均", "上月滞销", "本月滞销"] : List String).length)
    ∧ process ⟨["店铺", "品名", "产品类别", "Msku", "日均", "上月滞销", "本月滞销"],
        [[.str "StoreA", .str "ProdB", .str "Cat1", .str "SKU2",
            .num 5, .num 0, .num 10]]⟩
      = .ok ⟨["店铺", "品名", "产品类别", "Msku", "日均", "上月滞销", "本月滞销",
          "滞销数量变化", "变化百分比"],
        [[.str "StoreA", .str "ProdB", .str "Cat1", .str "SKU2",
            .num 5, .num 0, .num 10, .num (10 - 0),
            .num ((10 - 0) / (if (0 : ℚ) = 0 then 1 else 0) * 100)]]⟩
    ∧ (∀ row ∈ ([[.str "StoreA", .str "ProdB", .str "Cat1", .str "SKU2",
          .num 5, .num 0, .num 10, .num (10 - 0),
          .num ((10 - 0) / (if (0 : ℚ) = 0 then 1 else 0) * 100)]] : List (List Value)),
        ∃ prev chg : ℚ,
          getCell ["店铺", "品名", "产品类别", "Msku", "日均", "上月滞销", "本月滞销",
            "滞销数量变化", "变化百分比"] row "上月滞销" = .num prev
          ∧ getCell ["店铺", "品名", "产品类别", "Msku", "日均", "上月滞销", "本月滞销",
              "滞销数量变化", "变化百分比"] row "滞销数量变化" = .num chg
          ∧ replace_zero_one (getCell ["店铺", "品名", "产品类别", "Msku", "日均",
              "上月滞销", "本月滞销", "滞销数量变化", "变化百分比"] row "上月滞销")
              = .num (if prev = 0 then 1 else prev)
          ∧ (if prev = 0 then (1 : ℚ) else prev) ≠ 0
          ∧ getCell ["店铺", "品名", "产品类别", "Msku", "日均", "上月滞销", "本月滞销",
              "滞销数量变化", "变化百分比"] row "变化百分比"
              = .num (chg / (if prev = 0 then 1 else prev) * 100))
    ∧ (if (0 : ℚ) = 0 then (1 : ℚ) else 0) = 1 := by
  refine ⟨by decide, rfl,
    change_percent_guard
      ⟨["店铺", "品名", "产品类别", "Msku", "日均", "上月滞销", "本月滞销"],
        [[.str "StoreA", .str "ProdB", .str "Cat1", .str "SKU2",
            .num 5, .num 0, .num 10]]⟩
      ⟨["店铺", "品名", "产品类别", "Msku", "日均", "上月滞销", "本月滞销",
          "滞销数量变化", "变化百分比"],
        [[.str "StoreA", .str "ProdB", .str "Cat1", .str "SKU2",
            .num 5, .num 0, .num 10, .num (10 - 0),
            .num ((10 - 0) / (if (0 : ℚ) = 0 then 1 else 0) * 100)]]⟩
      (by decide) rfl, ?_⟩
  norm_num

/-- C7: an unparseable text cell in a numeric column is coerced to 0: on
    any frame whose headers pass reconciliation and expose the three
    numeric columns, the load succeeds with one output row per input row,
    and each numeric-column cell holding text that does not parse as a
    number comes out as the number 0. -/
theorem unparseable_cell_zero (df : DataFrame) {i1 i2 i3 : Nat}
    (hrect : ∀ r ∈ df.rows, r.length = df.headers.length)
    (hm : missingOf df.headers = [])
    (h1 : colIdx? df.headers "日均" = some i1)
    (h2 : colIdx? df.headers "上月滞销" = some i2)
    (h3 : colIdx? df.headers "本月滞销" = some i3) :
    ∃ out T, process df = .ok out
      ∧ out.rows = df.rows.map T
      ∧ out.rows.length = df.rows.length
      ∧ ∀ r ∈ df.rows, ∀ j, (j = i1 ∨ j = i2 ∨ j = i3) →
          ∀ s, r.getD j .na = .str s → parseNum s = none →
            (T r).getD j .na = .num 0 := by
  obtain ⟨out, hp, _, _, _, _, _, T, hrows, hcell⟩ :=
    process_ok_struct df hrect hm h1 h2 h3
  refine ⟨out, T, hp, hrows, by rw [hrows, List.length_map], ?_⟩
  intro r hr j hj s hs hparse
  obtain ⟨_, _, hF3⟩ := hcell r hr
  have hjlt : j < df.headers.length := by
    rcases hj with rfl | rfl | rfl
    · exact colIdx?_lt_length h1
    · exact colIdx?_lt_length h2
    · exact colIdx?_lt_length h3
  have hlab1 : df.headers.getD j "" ≠ "滞销数量变化" := by
    rcases hj with rfl | rfl | rfl
    · rw [colIdx?_getD h1]; decide
    · rw [colIdx?_getD h2]; decide
    · rw [colIdx?_getD h3]; decide
  have hlab2 : df.headers.getD j "" ≠ "变化百分比" := by
    rcases hj with rfl | rfl | rfl
    · rw [colIdx?_getD h1]; decide
    · rw [colIdx?_getD h2]; decide
    · rw [colIdx?_getD h3]; decide
  rw [hF3 j hjlt hlab1 hlab2, if_pos hj, hs]
  simp [to_numeric_cell, hparse, fill_cell]

/-- Witness for C7: a row whose daily-average cell is the unparseable text
    `"abc"` still loads, and that cell becomes 0. -/
theorem unparseable_cell_zero_witness :
    ((∀ r ∈ ([[.str "A", .str "P", .str "C", .str "S",
          .str "abc", .num 2, .num 3]] : List (List Value)), r.length
        = (["店铺", "品名", "产品类别", "Msku", "日均", "上月滞销", "本月滞销"] : List String).length)
      ∧ missingOf ["店铺", "品名", "产品类别", "Msku", "日均", "上月滞销", "本月滞销"] = []
      ∧ colIdx? ["店铺", "品名", "产品类别", "Msku", "日均", "上月滞销", "本月滞销"] "日均" = some 4
      ∧ parseNum "abc" = none)
    ∧ ∃ out T,
        process ⟨["店铺", "品名", "产品类别", "Msku", "日均", "上月滞销", "本月滞销"],
          [[.str "A", .str "P", .str "C", .str "S",
              .str "abc", .num 2, .num 3]]⟩ = .ok out
        ∧ out.rows = ([[.str "A", .str "P", .str "C", .str "S",
            .str "abc", .num 2, .num 3]] : List (List Value)).map T
        ∧ out.rows.length = ([[.str "A", .str "P", .str "C", .str "S",
            .str "abc", .num 2, .num 3]] : List (List Value)).length
        ∧ ∀ r ∈ ([[.str "A", .str "P", .str "C", .str "S",
            .str "abc", .num 2, .num 3]] : List (List Value)),
            ∀ j, (j = 4 ∨ j = 5 ∨ j = 6) →
            ∀ s, r.getD j .na = .str s → parseNum s = none →
              (T r).getD j .na = .num 0 :=
  ⟨⟨by decide, by decide, by decide, by decide⟩,
    unparseable_cell_zero
      ⟨["店铺", "品名", "产品类别", "Msku", "日均", "上月滞销", "本月滞销"],
        [[.str "A", .str "P", .str "C", .str "S", .str "abc", .num 2, .num 3]]⟩
      (by decide) (by decide) (by decide) (by decide) (by decide)⟩

/-- C10: after a successful load no cell anywhere in the table is missing:
    `fillna(0)` runs over the whole frame, so a missing cell in any
    non-derived column — including non-numeric ones such as the store
    name — comes out as the number 0. -/
theorem no_na_after_load (df out : DataFrame)
    (hrect : ∀ r ∈ df.rows, r.length = df.headers.length)
    (hok : process df = .ok out) :
    (∀ row ∈ out.rows, ∀ v ∈ row, v ≠ Value.na)
    ∧ ∃ T, out.rows = df.rows.map T
        ∧ ∀ r ∈ df.rows, ∀ j, j < df.headers.length →
            df.headers.getD j "" ≠ "滞销数量变化" →
            df.headers.getD j "" ≠ "变化百分比" →
            r.getD j .na = .na → (T r).getD j .na = .num 0 := by
  obtain ⟨hm, ⟨i1, h1⟩, ⟨i2, h2⟩, ⟨i3, h3⟩⟩ := process_ok_conditions hok
  obtain ⟨out2, hp2, _, _, _, _, _, T, hrows, hcell⟩ :=
    process_ok_struct df hrect hm h1 h2 h3
  rw [hok] at hp2
  obtain rfl : out2 = out := Except.ok.inj hp2.symm
  constructor
  · intro row hrow
    rw [hrows] at hrow
    obtain ⟨r, hr, rfl⟩ := List.mem_map.mp hrow
    obtain ⟨_, hna, _⟩ := hcell r hr
    exact hna
  · refine ⟨T, hrows, ?_⟩
    intro r hr j hjlt hne1 hne2 hisna
    obtain ⟨_, _, hF3⟩ := hcell r hr
    rw [hF3 j hjlt hne1 hne2]
    have hite : (if j = i1 ∨ j = i2 ∨ j = i3
        then to_numeric_cell (r.getD j .na) else r.getD j .na) = Value.na := by
      rw [hisna]
      split <;> rfl
    rw [hite]
    rfl

/-- Witness for C10: a missing store-name cell (a non-numeric column)
    becomes the number 0 after the load. -/
theorem no_na_after_load_witness :
    (∀ r ∈ ([[.na, .str "P", .str "C", .str "S",
          .num 1, .num 2, .num 3]] : List (List Value)), r.length
        = (["店铺", "品名", "产品类别", "Msku", "日均", "上月滞销", "本月滞销"] : List String).length)
    ∧ process ⟨["店铺", "品名", "产品类别", "Msku", "日均", "上月滞销", "本月滞销"],
        [[.na, .str "P", .str "C", .str "S", .num 1, .num 2, .num 3]]⟩
      = .ok ⟨["店铺", "品名", "产品类别", "Msku", "日均", "上月滞销", "本月滞销",
          "滞销数量变化", "变化百分比"],
        [[.num 0, .str "P", .str "C", .str "S", .num 1, .num 2, .num 3,
            .num (3 - 2), .num ((3 - 2) / (if (2 : ℚ) = 0 then 1 else 2) * 100)]]⟩
    ∧ ((∀ row ∈ ([[.num 0, .str "P", .str "C", .str "S", .num 1, .num 2, .num 3,
          .num (3 - 2), .num ((3 - 2) / (if (2 : ℚ) = 0 then 1 else 2) * 100)]]
            : List (List Value)),
        ∀ v ∈ row, v ≠ Value.na)
      ∧ ∃ T, ([[.num 0, .str "P", .str "C", .str "S", .num 1, .num 2, .num 3,
            .num (3 - 2), .num ((3 - 2) / (if (2 : ℚ) = 0 then 1 else 2) * 100)]]
              : List (List Value))
            = ([[.na, .str "P", .str "C", .str "S",
                .num 1, .num 2, .num 3]] : List (List Value)).map T
          ∧ ∀ r ∈ ([[.na, .str "P", .str "C", .str "S",
              .num 1, .num 2, .num 3]] : List (List Value)),
              ∀ j, j < (["店铺", "品名", "产品类别", "Msku", "日均", "上月滞销",
                  "本月滞销"] : List String).length →
              (["店铺", "品名", "产品类别", "Msku", "日均", "上月滞销",
                  "本月滞销"] : List String).getD j "" ≠ "滞销数量变化" →
              (["店铺", "品名", "产品类别", "Msku", "日均", "上月滞销",
                  "本月滞销"] : List String).getD j "" ≠ "变化百分比" →
              r.getD j .na = .na → (T r).getD j .na = .num 0) :=
  ⟨by decide, rfl,
    no_na_after_load
      ⟨["店铺", "品名", "产品类别", "Msku", "日均", "上月滞销", "本月滞销"],
        [[.na, .str "P", .str "C", .str "S", .num 1, .num 2, .num 3]]⟩
      ⟨["店铺", "品名", "产品类别", "Msku", "日均", "上月滞销", "本月滞销",
          "滞销数量变化", "变化百分比"],
        [[.num 0, .str "P", .str "C", .str "S", .num 1, .num 2, .num 3,
            .num (3 - 2), .num ((3 - 2) / (if (2 : ℚ) = 0 then 1 else 2) * 100)]]⟩
      (by decide) rfl⟩

section DigitLemmas

theorem valLE_digitsLEAux : ∀ fuel n : Nat, n ≤ fuel → valLE (digitsLEAux fuel n) = n := by
  intro fuel
  induction fuel with
  | zero =>
    intro n hn
    interval_cases n
    rfl
  | succ f ih =>
    intro n hn
    by_cases hz : n = 0
    · subst hz
      rfl
    · have : digitsLEAux (f + 1) n = n % 10 :: digitsLEAux f (n / 10) := by
        simp [digitsLEAux, hz]
      rw [this]
      have hle : n / 10 ≤ f := by omega
      simp only [valLE, ih (n / 10) hle]
      omega

theorem valLE_digitsLE (n : Nat) : valLE (digitsLE n) = n :=
  valLE_digitsLEAux n n le_rfl

theorem digitsLEAux_lt : ∀ fuel n : Nat, ∀ d ∈ digitsLEAux fuel n, d < 10 := by
  intro fuel
  induction fuel with
  | zero =>
    intro n d hd
    simp [digitsLEAux] at hd
  | succ f ih =>
    intro n d hd
    by_cases hz : n = 0
    · subst hz
      simp [digitsLEAux] at hd
    · have : digitsLEAux (f + 1) n = n % 10 :: digitsLEAux f (n / 10) := by
        simp [digitsLEAux, hz]
      rw [this] at hd
      rcases List.mem_cons.mp hd with rfl | hd
      · omega
      · exact ih (n / 10) d hd

theorem digitsLE_lt (n : Nat) : ∀ d ∈ digitsLE n, d < 10 :=
  digitsLEAux_lt n n

theorem valLE_append (a b : List Nat) :
    valLE (a ++ b) = valLE a + 10 ^ a.length * valLE b := by
  induction a with
  | nil => simp [valLE]
  | cons d ds ih =>
    show valLE (d :: (ds ++ b)) = _
    simp only [valLE, ih, List.length_cons]
    ring

theorem valLE_replicate_zero (j : Nat) : valLE (List.replicate j 0) = 0 := by
  induction j with
  | zero => rfl
  | succ n ih => simp [List.replicate, valLE, ih]

theorem digitVal?_digitChar {d : Nat} (hd : d < 10) :
    digitVal? (Nat.digitChar d) = some d := by
  interval_cases d <;> decide

theorem digitChar_ge_zero {d : Nat} (hd : d < 10) :
    '0' ≤ Nat.digitChar d ∧ Nat.digitChar d ≤ '9' := by
  interval_cases d <;> exact ⟨by decide, by decide⟩

theorem digitChar_ne_dot {d : Nat} (hd : d < 10) : Nat.digitChar d ≠ '.' := by
  interval_cases d <;> decide

theorem parseDigitsAux_append (cs1 cs2 : List Char) :
    ∀ acc, parseDigitsAux acc (cs1 ++ cs2)
      = match parseDigitsAux acc cs1 with
        | some m => parseDigitsAux m cs2
        | none => none := by
  induction cs1 with
  | nil => intro acc; rfl
  | cons c cs ih =>
    intro acc
    simp only [List.cons_append, parseDigitsAux]
    cases digitVal? c with
    | none => rfl
    | some d => exact ih (10 * acc + d)

theorem parseDigitsAux_BE (ds : List Nat) (hds : ∀ d ∈ ds, d < 10) :
    ∀ acc, parseDigitsAux acc ((ds.map Nat.digitChar).reverse)
      = some (acc * 10 ^ ds.length + valLE ds) := by
  induction ds with
  | nil =>
    intro acc
    simp [parseDigitsAux, valLE]
  | cons d rest ih =>
    intro acc
    have hd : d < 10 := hds d (by simp)
    have hrest : ∀ x ∈ rest, x < 10 := fun x hx => hds x (by simp [hx])
    simp only [List.map_cons, List.reverse_cons]
    rw [parseDigitsAux_append]
    rw [ih hrest acc]
    simp only [parseDigitsAux, digitVal?_digitChar hd]
    congr 1
    simp only [valLE, List.length_cons]
    ring

end DigitLemmas

section TakeDropLemmas

theorem takeWhile_all_append {p : Char → Bool} (l1 : List Char) (x : Char)
    (l2 : List Char) (h : ∀ c ∈ l1, p c = true) (hx : p x = false) :
    (l1 ++ x :: l2).takeWhile p = l1 := by
  induction l1 with
  | nil => simp [List.takeWhile, hx]
  | cons c cs ih =>
    have hc : p c = true := h c (by simp)
    have hcs : ∀ u ∈ cs, p u = true := fun u hu => h u (by simp [hu])
    simp [List.takeWhile, hc, ih hcs]

theorem dropWhile_all_append {p : Char → Bool} (l1 : List Char) (x : Char)
    (l2 : List Char) (h : ∀ c ∈ l1, p c = true) (hx : p x = false) :
    (l1 ++ x :: l2).dropWhile p = x :: l2 := by
  induction l1 with
  | nil => simp [List.dropWhile, hx]
  | cons c cs ih =>
    have hc : p c = true := h c (by simp)
    have hcs : ∀ u ∈ cs, p u = true := fun u hu => h u (by simp [hu])
    simp [List.dropWhile, hc, ih hcs]

end TakeDropLemmas

theorem parseUnsigned_renderPos (m k : Nat) :
    parseUnsigned (renderPos m k) = some ((m : ℚ) / 10 ^ k) := by
  set ds := digitsLE m with hds
  set padded := ds ++ List.replicate (k + 1 - ds.length) 0 with hpadded
  have hplt : ∀ d ∈ padded, d < 10 := by
    intro d hd
    rcases List.mem_append.mp hd with h | h
    · exact digitsLE_lt m d h
    · rw [List.eq_of_mem_replicate h]
      omega
  have hpval : valLE padded = m := by
    rw [hpadded, valLE_append, valLE_replicate_zero, hds, valLE_digitsLE]
    ring
  have hplen : k + 1 ≤ padded.length := by
    rw [hpadded, List.length_append, List.length_replicate]
    omega
  have hintlen : 1 ≤ (padded.drop k).length := by
    rw [List.length_drop]
    omega
  have hfralen : (padded.take k).length = k := by
    rw [List.length_take]
    omega
  have hRP : renderPos m k
      = ((padded.drop k).map Nat.digitChar).reverse
        ++ '.' :: ((padded.take k).map Nat.digitChar).reverse := rfl
  have hdigit_int : ∀ c ∈ ((padded.drop k).map Nat.digitChar).reverse,
      (fun c => decide (c ≠ '.')) c = true := by
    intro c hc
    rw [List.mem_reverse] at hc
    obtain ⟨d, hd, rfl⟩ := List.mem_map.mp hc
    have hlt : d < 10 := hplt d (List.mem_of_mem_drop hd)
    simpa using digitChar_ne_dot hlt
  have hdigit_fra : ∀ c ∈ ((padded.take k).map Nat.digitChar).reverse,
      c ≠ '.' := by
    intro c hc
    rw [List.mem_reverse] at hc
    obtain ⟨d, hd, rfl⟩ := List.mem_map.mp hc
    exact digitChar_ne_dot (hplt d (List.mem_of_mem_take hd))
  have hdot : (fun c => decide (c ≠ '.')) '.' = false := by decide
  have hIlt : ∀ d ∈ padded.drop k, d < 10 :=
    fun d hd => hplt d (List.mem_of_mem_drop hd)
  have hFlt : ∀ d ∈ padded.take k, d < 10 :=
    fun d hd => hplt d (List.mem_of_mem_take hd)
  unfold parseUnsigned
  rw [hRP]
  rw [takeWhile_all_append _ _ _ hdigit_int hdot,
    dropWhile_all_append _ _ _ hdigit_int hdot]
  dsimp only
  rw [if_neg (by
    intro hany
    rw [List.any_eq_true] at hany
    obtain ⟨c, hc, hcd⟩ := hany
    exact hdigit_fra c hc (by simpa using hcd))]
  rw [if_neg (by
    rintro ⟨hi, _⟩
    have := List.isEmpty_iff.mp hi
    have hlen := congrArg List.length this
    simp only [List.length_reverse, List.length_map, List.length_nil] at hlen
    omega)]
  rw [parseDigitsAux_BE _ hIlt 0, parseDigitsAux_BE _ hFlt 0]
  dsimp only
  have hm : valLE (padded.take k) + 10 ^ k * valLE (padded.drop k) = m := by
    conv_rhs => rw [← hpval, ← List.take_append_drop k padded]
    rw [valLE_append, hfralen]
  congr 1
  rw [List.length_reverse, List.length_map, hfralen]
  rw [← hm]
  have h10 : ((10 : ℚ)) ^ k ≠ 0 := pow_ne_zero _ (by norm_num)
  push_cast
  field_simp
  ring

theorem renderPos_head (m k : Nat) :
    ∃ c rest, renderPos m k = c :: rest ∧ '0' ≤ c ∧ c ≤ '9' := by
  set ds := digitsLE m with hds
  set padded := ds ++ List.replicate (k + 1 - ds.length) 0 with hpadded
  have hplen : k + 1 ≤ padded.length := by
    rw [hpadded, List.length_append, List.length_replicate]
    omega
  have hRP : renderPos m k
      = ((padded.drop k).map Nat.digitChar).reverse
        ++ '.' :: ((padded.take k).map Nat.digitChar).reverse := rfl
  cases hcase : ((padded.drop k).map Nat.digitChar).reverse with
  | nil =>
    exfalso
    have hlen := congrArg List.length hcase
    simp only [List.length_reverse, List.length_map, List.length_drop,
      List.length_nil] at hlen
    omega
  | cons c rest =>
    have hcmem : c ∈ ((padded.drop k).map Nat.digitChar).reverse := by
      rw [hcase]
      simp
    rw [List.mem_reverse] at hcmem
    obtain ⟨d, hd, rfl⟩ := List.mem_map.mp hcmem
    have hdlt : d < 10 := by
      have hmem : d ∈ padded := List.mem_of_mem_drop hd
      rcases List.mem_append.mp hmem with h | h
      · exact digitsLE_lt m d h
      · rw [List.eq_of_mem_replicate h]
        omega
    obtain ⟨hge, hle⟩ := digitChar_ge_zero hdlt
    exact ⟨Nat.digitChar d, rest ++ '.' :: ((padded.take k).map Nat.digitChar).reverse,
      by rw [hRP, hcase]; rfl, hge, hle⟩

theorem parseNum_cons_digit {c : Char} {cs : List Char} (h0 : '0' ≤ c) :
    parseNum (String.mk (c :: cs)) = parseUnsigned (c :: cs) := by
  have hm : ¬ (c = '-') := by
    intro he
    subst he
    revert h0
    decide
  have hp : ¬ (c = '+') := by
    intro he
    subst he
    revert h0
    decide
  show parseNum ⟨c :: cs⟩ = _
  unfold parseNum
  simp [String.toList, hm, hp]

theorem parseNum_cons_minus (cs : List Char) :
    parseNum (String.mk ('-' :: cs)) = (parseUnsigned cs).map (fun x => -x) := by
  unfold parseNum
  simp [String.toList]

theorem dvd_ten_pow_self : ∀ d : ℕ, (∃ k, d ∣ 10 ^ k) → d ∣ 10 ^ d := by
  intro d
  induction d using Nat.strong_induction_on with
  | _ d ih =>
    rintro ⟨k, hk⟩
    rcases eq_or_ne d 1 with rfl | hd1
    · exact one_dvd _
    rcases eq_or_ne d 0 with rfl | hd0
    · exfalso
      have hzero := Nat.eq_zero_of_zero_dvd hk
      exact pow_ne_zero k (by norm_num : (10 : ℕ) ≠ 0) hzero
    obtain ⟨p, hp, hpd⟩ := Nat.exists_prime_and_dvd hd1
    have hpk : p ∣ 10 ^ k := hpd.trans hk
    have hp10 : p ∣ 10 := hp.dvd_of_dvd_pow hpk
    obtain ⟨e, rfl⟩ := hpd
    have hepos : e ≠ 0 := by
      rintro rfl
      simp at hd0
    have hp2 : 2 ≤ p := hp.two_le
    have helt : e < p * e := by
      have he1 : 1 ≤ e := Nat.one_le_iff_ne_zero.mpr hepos
      calc e = 1 * e := (one_mul e).symm
        _ < p * e := by
            exact Nat.mul_lt_mul_of_lt_of_le (by omega) le_rfl (by omega)
    have hek : e ∣ 10 ^ k := (dvd_mul_left e p).trans hk
    have hIH : e ∣ 10 ^ e := ih e helt ⟨k, hek⟩
    have hcomb : p * e ∣ 10 ^ (e + 1) := by
      rw [pow_succ, mul_comm p e]
      exact mul_dvd_mul hIH hp10
    have hle : e + 1 ≤ p * e := by
      have he1 : 1 ≤ e := Nat.one_le_iff_ne_zero.mpr hepos
      nlinarith
    exact hcomb.trans (pow_dvd_pow 10 hle)

theorem parseUnsigned_den_dvd {cs : List Char} {q : ℚ}
    (h : parseUnsigned cs = some q) : ∃ j, q.den ∣ 10 ^ j := by
  unfold parseUnsigned at h
  split at h
  · split at h
    · exact absurd h (by simp)
    · obtain ⟨n, _, rfl⟩ := Option.map_eq_some'.mp h
      refine ⟨1, ?_⟩
      have hden : ((n : ℚ)).den = 1 := by
        have hcast : ((n : ℚ)) = ((n : ℤ) : ℚ) := by push_cast; rfl
        rw [hcast, Rat.den_intCast]
      rw [hden]
      exact one_dvd _
  · rename_i x head fp heq
    split at h
    · exact absurd h (by simp)
    · split at h
      · exact absurd h (by simp)
      · split at h
        · rename_i i f hi hf
          obtain rfl := Option.some.inj h
          refine ⟨fp.length, ?_⟩
          have key : (i : ℚ) + (f : ℚ) / 10 ^ fp.length
              = Rat.divInt ((i * 10 ^ fp.length + f : ℤ)) ((10 : ℤ) ^ fp.length) := by
            rw [Rat.divInt_eq_div]
            have h10 : ((10 : ℚ)) ^ fp.length ≠ 0 := pow_ne_zero _ (by norm_num)
            push_cast
            field_simp
          rw [key]
          have hd := Rat.den_dvd (i * 10 ^ fp.length + f : ℤ) ((10 : ℤ) ^ fp.length)
          have hd2 : (((Rat.divInt ((i * 10 ^ fp.length + f : ℤ))
                ((10 : ℤ) ^ fp.length)).den : ℤ))
              ∣ (((10 ^ fp.length : ℕ) : ℤ)) := by
            push_cast
            exact hd
          exact_mod_cast hd2
        · exact absurd h (by simp)

theorem parseNum_isDec {s : String} {q : ℚ} (h : parseNum s = some q) :
    IsDecFrac q := by
  unfold parseNum at h
  split at h
  · exact absurd h (by simp)
  · split at h
    · obtain ⟨q0, hq0, rfl⟩ := Option.map_eq_some'.mp h
      show (-q0).den ∣ 10 ^ (-q0).den
      rw [Rat.neg_den]
      exact dvd_ten_pow_self _ (parseUnsigned_den_dvd hq0)
    · split at h
      · exact dvd_ten_pow_self _ (parseUnsigned_den_dvd h)
      · exact dvd_ten_pow_self _ (parseUnsigned_den_dvd h)

theorem parseNum_render {q : ℚ} (hq : IsDecFrac q) : parseNum (render q) = some q := by
  have hden0 : ((q.den : ℚ)) ≠ 0 := Nat.cast_ne_zero.mpr q.den_nz
  have hdvdZ : ((q.den : ℤ)) ∣ q.num * (10 : ℤ) ^ q.den := by
    have h1 : ((q.den : ℤ)) ∣ ((10 : ℤ)) ^ q.den := by
      have h2 := Int.natCast_dvd_natCast.mpr hq
      push_cast at h2
      exact h2
    exact Dvd.dvd.mul_left h1 q.num
  have hexact : (q.num * (10 : ℤ) ^ q.den / (q.den : ℤ)) * (q.den : ℤ)
      = q.num * (10 : ℤ) ^ q.den := Int.ediv_mul_cancel hdvdZ
  have hqval : ∀ mv : ℤ, mv * (q.den : ℤ) = q.num * 10 ^ q.den →
      ((mv : ℚ)) / 10 ^ q.den = q := by
    intro mv hmv
    have hcast : (mv : ℚ) * (q.den : ℚ) = (q.num : ℚ) * 10 ^ q.den := by
      exact_mod_cast congrArg (fun z : ℤ => (z : ℚ)) hmv
    have h10 : ((10 : ℚ)) ^ q.den ≠ 0 := pow_ne_zero _ (by norm_num)
    rw [div_eq_iff h10]
    have hq2 : q * (q.den : ℚ) = (q.num : ℚ) := by
      have hnd := Rat.num_div_den q
      nth_rewrite 1 [← hnd]
      exact div_mul_cancel₀ _ hden0
    apply mul_right_cancel₀ hden0
    rw [hcast, mul_right_comm, hq2]
  unfold render
  by_cases hneg : q.num * (10 : ℤ) ^ q.den / (q.den : ℤ) < 0
  · rw [if_pos hneg]
    rw [parseNum_cons_minus, parseUnsigned_renderPos]
    simp only [Option.map_some']
    congr 1
    have h1 : (((q.num * (10 : ℤ) ^ q.den / (q.den : ℤ)).natAbs : ℤ))
        = -(q.num * (10 : ℤ) ^ q.den / (q.den : ℤ)) :=
      Int.ofNat_natAbs_of_nonpos (le_of_lt hneg)
    have habs : (((q.num * (10 : ℤ) ^ q.den / (q.den : ℤ)).natAbs : ℚ))
        = -(((q.num * (10 : ℤ) ^ q.den / (q.den : ℤ) : ℤ)) : ℚ) := by
      calc (((q.num * (10 : ℤ) ^ q.den / (q.den : ℤ)).natAbs : ℚ))
          = ((((q.num * (10 : ℤ) ^ q.den / (q.den : ℤ)).natAbs : ℤ)) : ℚ) :=
            (Int.cast_natCast _).symm
        _ = ((-(q.num * (10 : ℤ) ^ q.den / (q.den : ℤ)) : ℤ) : ℚ) := by rw [h1]
        _ = -(((q.num * (10 : ℤ) ^ q.den / (q.den : ℤ) : ℤ)) : ℚ) := by push_cast; ring
    rw [habs, neg_div, neg_neg]
    exact hqval _ hexact
  · rw [if_neg hneg]
    obtain ⟨c, rest, hcr, h0, _⟩ :=
      renderPos_head (q.num * (10 : ℤ) ^ q.den / (q.den : ℤ)).natAbs q.den
    rw [hcr, parseNum_cons_digit h0, ← hcr, parseUnsigned_renderPos]
    congr 1
    have h1 : (((q.num * (10 : ℤ) ^ q.den / (q.den : ℤ)).natAbs : ℤ))
        = q.num * (10 : ℤ) ^ q.den / (q.den : ℤ) :=
      Int.natAbs_of_nonneg (not_lt.mp hneg)
    have habs : (((q.num * (10 : ℤ) ^ q.den / (q.den : ℤ)).natAbs : ℚ))
        = (((q.num * (10 : ℤ) ^ q.den / (q.den : ℤ) : ℤ)) : ℚ) := by
      calc (((q.num * (10 : ℤ) ^ q.den / (q.den : ℤ)).natAbs : ℚ))
          = ((((q.num * (10 : ℤ) ^ q.den / (q.den : ℤ)).natAbs : ℤ)) : ℚ) :=
            (Int.cast_natCast _).symm
        _ = (((q.num * (10 : ℤ) ^ q.den / (q.den : ℤ) : ℤ)) : ℚ) := by rw [h1]
    rw [habs]
    exact hqval _ hexact

theorem getD_mem {l : List Value} {i : Nat} {d : Value} (h : i < l.length) :
    l.getD i d ∈ l := by
  rw [List.getD_eq_getElem l d h]
  exact List.getElem_mem h

theorem fill_tn_isDec {v : Value} (hv : decimalCell v) :
    ∃ q : ℚ, fill_cell (to_numeric_cell v) = .num q ∧ IsDecFrac q := by
  have hzero : IsDecFrac (0 : ℚ) := by decide
  cases v with
  | na => exact ⟨0, rfl, hzero⟩
  | num q => exact ⟨q, rfl, hv⟩
  | str s =>
    cases hp : parseNum s with
    | some q =>
      exact ⟨q, by simp [to_numeric_cell, hp, fill_cell], parseNum_isDec hp⟩
    | none =>
      exact ⟨0, by simp [to_numeric_cell, hp, fill_cell], hzero⟩

theorem readBackCell_render (q : ℚ) :
    readBackCell (render q) = .str (render q) := by
  unfold readBackCell
  rw [if_neg]
  intro hemp
  have htl : (render q).toList = [] := List.isEmpty_iff.mp hemp
  unfold render at htl
  obtain ⟨c, rest, hcr, _, _⟩ :=
    renderPos_head (q.num * (10 : ℤ) ^ q.den / (q.den : ℤ)).natAbs q.den
  by_cases hneg : q.num * (10 : ℤ) ^ q.den / (q.den : ℤ) < 0
  · rw [if_pos hneg] at htl
    exact List.noConfusion htl
  · rw [if_neg hneg] at htl
    rw [show (String.mk (renderPos (q.num * (10 : ℤ) ^ q.den / (q.den : ℤ)).natAbs
        q.den)).toList = renderPos (q.num * (10 : ℤ) ^ q.den / (q.den : ℤ)).natAbs
        q.den from rfl, hcr] at htl
    exact List.noConfusion htl

theorem tn_readBack_export {v : Value} {q : ℚ}
    (hv : fill_cell (to_numeric_cell v) = .num q) (hq : IsDecFrac q)
    (hnum : ∃ q0 : ℚ, v = .num q0) :
    to_numeric_cell (readBackCell (exportCell v)) = .num q := by
  obtain ⟨q0, rfl⟩ := hnum
  have hq0 : q0 = q := by
    have : fill_cell (to_numeric_cell (Value.num q0)) = .num q0 := rfl
    rw [this] at hv
    exact Value.num.inj hv
  subst hq0
  show to_numeric_cell (readBackCell (render q0)) = .num q0
  rw [readBackCell_render]
  simp [to_numeric_cell, parseNum_render hq]

theorem acFind_mono {H E : List String} {c v : String}
    (h : acFind H c = some v) : ∃ w, acFind (H ++ E) c = some w := by
  unfold acFind at h ⊢
  cases hck : column_mapping.find? (fun kv => kv.1 == c) with
  | none =>
    rw [hck] at h
    exact Option.noConfusion h
  | some kv =>
    rw [hck] at h
    dsimp only at h ⊢
    cases hfw : kv.2.find? (fun n => (H ++ E).contains n) with
    | some w => exact ⟨w, rfl⟩
    | none =>
      exfalso
      have hv := List.find?_some h
      have hvmem := List.mem_of_find?_eq_some h
      have := List.find?_eq_none.mp hfw v hvmem
      apply this
      have hvH : v ∈ H := List.elem_iff.mp (by simpa using hv)
      exact List.elem_iff.mpr (List.mem_append_left E hvH)

theorem missingOf_append {H E : List String} (h : missingOf H = []) :
    missingOf (H ++ E) = [] := by
  unfold missingOf at h ⊢
  rw [List.filter_eq_nil_iff] at h ⊢
  intro c hc
  have h1 := h c hc
  cases hAC : acFind H c with
  | none => exact absurd (by rw [hAC]; rfl) h1
  | some v =>
    obtain ⟨w, hw⟩ := acFind_mono (E := E) hAC
    intro hcontra
    rw [hw] at hcontra
    exact Bool.noConfusion hcontra

/-- C8: exporting a successfully loaded (and arbitrarily row-filtered)
    table to CSV text and re-importing that text through the same pipeline
    reproduces the two derived numeric columns 滞销数量变化 and 变化百分比
    row for row.  The hypothesis on the input frame says its numeric cells
    model floats (decimal fractions), which is what `read_csv` produces. -/
theorem csv_roundtrip (df out : DataFrame) (p : List Value → Bool)
    (hrect : ∀ r ∈ df.rows, r.length = df.headers.length)
    (hdec : ∀ r ∈ df.rows, ∀ v ∈ r, decimalCell v)
    (hok : process df = .ok out) :
    ∃ out2 : DataFrame,
      process ⟨out.headers, (out.rows.filter p).map reimportRow⟩ = .ok out2
      ∧ getColValues out2 "滞销数量变化"
          = getColValues ⟨out.headers, out.rows.filter p⟩ "滞销数量变化"
      ∧ getColValues out2 "变化百分比"
          = getColValues ⟨out.headers, out.rows.filter p⟩ "变化百分比" := by
  obtain ⟨hm, ⟨i1, h1⟩, ⟨i2, h2⟩, ⟨i3, h3⟩⟩ := process_ok_conditions hok
  obtain ⟨out1, hp1, ⟨extra, hHext⟩, hpresIdx, hja, hjb, hrectOut, T, hrows, hcell⟩ :=
    process_ok_struct df hrect hm h1 h2 h3
  obtain rfl : out = out1 := Except.ok.inj (hok.symm.trans hp1)
  have hm2 : missingOf out.headers = [] := by
    rw [hHext]
    exact missingOf_append hm
  have h1e : colIdx? out.headers "日均" = some i1 := hpresIdx _ _ h1
  have h2e : colIdx? out.headers "上月滞销" = some i2 := hpresIdx _ _ h2
  have h3e : colIdx? out.headers "本月滞销" = some i3 := hpresIdx _ _ h3
  set ex : DataFrame := ⟨out.headers, (out.rows.filter p).map reimportRow⟩ with hex
  have hrectEx : ∀ r ∈ ex.rows, r.length = ex.headers.length := by
    intro r hr
    obtain ⟨r2, hr2, rfl⟩ := List.mem_map.mp hr
    have hr2out : r2 ∈ out.rows := List.mem_of_mem_filter hr2
    show (reimportRow r2).length = out.headers.length
    unfold reimportRow
    rw [List.length_map]
    exact hrectOut r2 hr2out
  obtain ⟨out2, hp2, _, hpresIdx2, _, _, _, T2, hrows2, hcell2⟩ :=
    process_ok_struct ex hrectEx hm2 h1e h2e h3e
  have hpointwise : ∀ r2 ∈ out.rows.filter p,
      getCell out2.headers (T2 (reimportRow r2)) "滞销数量变化"
        = getCell out.headers r2 "滞销数量变化"
      ∧ getCell out2.headers (T2 (reimportRow r2)) "变化百分比"
        = getCell out.headers r2 "变化百分比" := by
    intro r2 hr2f
    have hr2out : r2 ∈ out.rows := List.mem_of_mem_filter hr2f
    have hr2len : r2.length = out.headers.length := hrectOut r2 hr2out
    rw [hrows] at hr2out
    obtain ⟨r, hr, hTr⟩ := List.mem_map.mp hr2out
    obtain ⟨⟨prev, cur, hfp, hfc, hgp, hgc, hgc1, hgc2⟩, _, _⟩ := hcell r hr
    rw [hTr] at hgp hgc hgc1 hgc2
    have hi2lt : i2 < r.length := by
      rw [hrect r hr]
      exact colIdx?_lt_length h2
    have hi3lt : i3 < r.length := by
      rw [hrect r hr]
      exact colIdx?_lt_length h3
    have hdecp : IsDecFrac prev := by
      obtain ⟨q, hq, hdq⟩ := fill_tn_isDec (hdec r hr _ (getD_mem hi2lt))
      rw [hfp] at hq
      rwa [← Value.num.inj hq] at hdq
    have hdecc : IsDecFrac cur := by
      obtain ⟨q, hq, hdq⟩ := fill_tn_isDec (hdec r hr _ (getD_mem hi3lt))
      rw [hfc] at hq
      rwa [← Value.num.inj hq] at hdq
    have hi2lt2 : i2 < r2.length := by
      rw [hr2len]
      exact colIdx?_lt_length h2e
    have hi3lt2 : i3 < r2.length := by
      rw [hr2len]
      exact colIdx?_lt_length h3e
    have hr2i2 : r2.getD i2 .na = .num prev := by
      unfold getCell at hgp
      rw [h2e] at hgp
      exact hgp
    have hr2i3 : r2.getD i3 .na = .num cur := by
      unfold getCell at hgc
      rw [h3e] at hgc
      exact hgc
    have htn2 : fill_cell (to_numeric_cell ((reimportRow r2).getD i2 .na)) = .num prev := by
      unfold reimportRow
      rw [getD_map _ _ _ _ hi2lt2, hr2i2,
        tn_readBack_export (v := .num prev) (q := prev) rfl hdecp ⟨prev, rfl⟩]
      rfl
    have htn3 : fill_cell (to_numeric_cell ((reimportRow r2).getD i3 .na)) = .num cur := by
      unfold reimportRow
      rw [getD_map _ _ _ _ hi3lt2, hr2i3,
        tn_readBack_export (v := .num cur) (q := cur) rfl hdecc ⟨cur, rfl⟩]
      rfl
    have hrrmem : reimportRow r2 ∈ ex.rows := List.mem_map_of_mem _ hr2f
    obtain ⟨⟨prev2, cur2, hfp2, hfc2, _, _, hgc1e, hgc2e⟩, _, _⟩ :=
      hcell2 (reimportRow r2) hrrmem
    have hpeq : prev2 = prev := Value.num.inj (hfp2.symm.trans htn2)
    have hceq : cur2 = cur := Value.num.inj (hfc2.symm.trans htn3)
    subst hpeq
    subst hceq
    exact ⟨by rw [hgc1e, hgc1], by rw [hgc2e, hgc2]⟩
  refine ⟨out2, hp2, ?_, ?_⟩
  · unfold getColValues
    rw [hrows2]
    show (((out.rows.filter p).map reimportRow).map T2).map
        (fun r => getCell out2.headers r "滞销数量变化") = _
    rw [List.map_map, List.map_map]
    refine List.map_eq_map_iff.mpr ?_
    intro r2 hr2f
    exact (hpointwise r2 hr2f).1
  · unfold getColValues
    rw [hrows2]
    show (((out.rows.filter p).map reimportRow).map T2).map
        (fun r => getCell out2.headers r "变化百分比") = _
    rw [List.map_map, List.map_map]
    refine List.map_eq_map_iff.mpr ?_
    intro r2 hr2f
    exact (hpointwise r2 hr2f).2

/-- Witness for C8: a one-row table is loaded, exported in full, re-imported,
    and the derived columns come back identical. -/
theorem csv_roundtrip_witness :
    ((∀ r ∈ ([[.str "A", .str "P", .str "C", .str "S",
          .num 1, .num 4, .num 7]] : List (List Value)), r.length
        = (["店铺", "品名", "产品类别", "Msku", "日均", "上月滞销", "本月滞销"] : List String).length)
      ∧ (∀ r ∈ ([[.str "A", .str "P", .str "C", .str "S",
          .num 1, .num 4, .num 7]] : List (List Value)), ∀ v ∈ r, decimalCell v)
      ∧ process ⟨["店铺", "品名", "产品类别", "Msku", "日均", "上月滞销", "本月滞销"],
          [[.str "A", .str "P", .str "C", .str "S", .num 1, .num 4, .num 7]]⟩
        = .ok ⟨["店铺", "品名", "产品类别", "Msku", "日均", "上月滞销", "本月滞销",
            "滞销数量变化", "变化百分比"],
          [[.str "A", .str "P", .str "C", .str "S", .num 1, .num 4, .num 7,
              .num (7 - 4), .num ((7 - 4) / (if (4 : ℚ) = 0 then 1 else 4) * 100)]]⟩)
    ∧ ∃ out2 : DataFrame,
        process ⟨(⟨["店铺", "品名", "产品类别", "Msku", "日均", "上月滞销", "本月滞销",
              "滞销数量变化", "变化百分比"],
            [[.str "A", .str "P", .str "C", .str "S", .num 1, .num 4, .num 7,
                .num (7 - 4), .num ((7 - 4) / (if (4 : ℚ) = 0 then 1 else 4) * 100)]]⟩
              : DataFrame).headers,
          (((⟨["店铺", "品名", "产品类别", "Msku", "日均", "上月滞销", "本月滞销",
              "滞销数量变化", "变化百分比"],
            [[.str "A", .str "P", .str "C", .str "S", .num 1, .num 4, .num 7,
                .num (7 - 4), .num ((7 - 4) / (if (4 : ℚ) = 0 then 1 else 4) * 100)]]⟩
              : DataFrame).rows.filter (fun _ => true)).map reimportRow)⟩ = .ok out2
        ∧ getColValues out2 "滞销数量变化"
            = getColValues ⟨(⟨["店铺", "品名", "产品类别", "Msku", "日均", "上月滞销",
                "本月滞销", "滞销数量变化", "变化百分比"],
              [[.str "A", .str "P", .str "C", .str "S", .num 1, .num 4, .num 7,
                  .num (7 - 4), .num ((7 - 4) / (if (4 : ℚ) = 0 then 1 else 4) * 100)]]⟩
                : DataFrame).headers,
              (⟨["店铺", "品名", "产品类别", "Msku", "日均", "上月滞销", "本月滞销",
                  "滞销数量变化", "变化百分比"],
                [[.str "A", .str "P", .str "C", .str "S", .num 1, .num 4, .num 7,
                    .num (7 - 4), .num ((7 - 4) / (if (4 : ℚ) = 0 then 1 else 4) * 100)]]⟩
                  : DataFrame).rows.filter (fun _ => true)⟩ "滞销数量变化"
        ∧ getColValues out2 "变化百分比"
            = getColValues ⟨(⟨["店铺", "品名", "产品类别", "Msku", "日均", "上月滞销",
                "本月滞销", "滞销数量变化", "变化百分比"],
              [[.str "A", .str "P", .str "C", .str "S", .num 1, .num 4, .num 7,
                  .num (7 - 4), .num ((7 - 4) / (if (4 : ℚ) = 0 then 1 else 4) * 100)]]⟩
                : DataFrame).headers,
              (⟨["店铺", "品名", "产品类别", "Msku", "日均", "上月滞销", "本月滞销",
                  "滞销数量变化", "变化百分比"],
                [[.str "A", .str "P", .str "C", .str "S", .num 1, .num 4, .num 7,
                    .num (7 - 4), .num ((7 - 4) / (if (4 : ℚ) = 0 then 1 else 4) * 100)]]⟩
                  : DataFrame).rows.filter (fun _ => true)⟩ "变化百分比" :=
  ⟨⟨by decide, by decide, rfl⟩,
    csv_roundtrip
      ⟨["店铺", "品名", "产品类别", "Msku", "日均", "上月滞销", "本月滞销"],
        [[.str "A", .str "P", .str "C", .str "S", .num 1, .num 4, .num 7]]⟩
      ⟨["店铺", "品名", "产品类别", "Msku", "日均", "上月滞销", "本月滞销",
          "滞销数量变化", "变化百分比"],
        [[.str "A", .str "P", .str "C", .str "S", .num 1, .num 4, .num 7,
            .num (7 - 4), .num ((7 - 4) / (if (4 : ℚ) = 0 then 1 else 4) * 100)]]⟩
      (fun _ => true) (by decide) (by decide) rfl⟩
